import Mathlib

/-!
# Verification development for `script.js`

A shallow embedding of the panel navigation controller
(`HorizontalSmoothScrollController`) with its swipe and wheel input, the
fire-and-forget particle spawners, the catch game, the 3D particle field, the
Konami code matcher and the easing functions of `script.js`, with the properties
stated about them.

Modelling conventions

* JavaScript numbers that are only ever integers (`currentPanel`, `totalPanels`,
  dot and panel positions) are `Int`/`Nat`; numbers that may be fractional
  (`translateX`, `innerWidth`, the progress percentage) are exact rationals.
  Where a rounded result decides which method is called (`startX - endX` in
  `handleSwipe`), the arithmetic operation is a parameter, so that the
  statement holds for the value the code computes.
* Time is a logical clock in milliseconds.  A `setTimeout(f, d)` issued at time
  `now` is a pending timer with due time `now + d`; letting time pass fires the
  pending timers whose due time has been reached, earliest first, and timers
  with the same due time in the order they were registered.
* The DOM is reduced to the attributes the code reads or writes.
-/

namespace Hehe

/-! ## Panel navigation controller -/

/-- One `.panel` section: its inline `style.opacity` and, for every descendant
matched by the selector list of `triggerPanelAnimations` (in document order),
whether its class list contains `visible`. -/
structure Panel where
  opacity : Nat
  elements : List Bool
deriving DecidableEq

/-- A pending reveal callback registered by `triggerPanelAnimations`: at `due`
it runs `element.classList.add('visible')` on element `elem` of panel `panel`. -/
structure RevealTimer where
  due : Nat
  panel : Nat
  elem : Nat
deriving DecidableEq

/-- The value of `getComputedStyle(scrollContainer).transform` as far as the
code inspects it: `none` is the string `'none'`, `some tx` a matrix whose `m41`
entry is `tx`. -/
abbrev ComputedTransform := Option ℚ

/-- State of a `HorizontalSmoothScrollController` together with the DOM
attributes it owns.  `progressWidth` is `progressBar.style.width` in percent
and `transformVw` the `translateX` of `scrollContainer.style.transform` in `vw`
(`none`: never written).  `lastTransform` is the closure variable of
`observeScrollPosition` (`none`: its initial value, the number `0`, which is
different from every string). -/
structure Controller where
  panels : List Panel
  navDots : List Bool
  progressWidth : Option ℚ
  transformVw : Option Int
  currentPanel : Int
  totalPanels : Int
  lastTransform : Option ComputedTransform
  timers : List RevealTimer
  now : Nat
deriving DecidableEq

/-- The loop of `setupScrollAnimations`: `panel.style.opacity = '0'`. -/
def hideAll (panels : List Panel) : List Panel :=
  panels.map fun p => { p with opacity := 0 }

/-- Applies `f` to the entry at position `n`, if there is one: a write to a
property of the object found there. -/
def modifyAt {α : Type} (f : α → α) : Nat → List α → List α
  | _, [] => []
  | 0, p :: ps => f p :: ps
  | n + 1, p :: ps => p :: modifyAt f n ps

/-- The constructor followed by `init()`: `currentPanel = 0`, `totalPanels = 4`,
`setupScrollAnimations` hides every panel and shows the first one.  With no
panel in the document `this.panels[0].style` throws, which is `none`.  The
timers that later call `triggerPanelAnimations(0)` and the two polling
intervals are events of the environment (see `Op`). -/
def Controller.create (panels : List Panel) (navDots : List Bool) : Option Controller :=
  match panels with
  | [] => none
  | _ :: _ =>
    some
      { panels := modifyAt (fun p => { p with opacity := 1 }) 0 (hideAll panels)
        navDots := navDots
        progressWidth := none
        transformVw := none
        currentPanel := 0
        totalPanels := 4
        lastTransform := none
        timers := []
        now := 0 }

/-- The body of `updateProgressBar`:
`progress = (currentPanel / (totalPanels - 1)) * 100`. -/
def updateProgressBar (s : Controller) : Controller :=
  { s with
    progressWidth := some ((s.currentPanel : ℚ) / ((s.totalPanels - 1 : Int) : ℚ) * 100) }

/-- The loop of `updateActiveDot` from position `j` on:
`dot.classList.toggle('active', index === activeIndex)`. -/
def toggleDots (activeIndex : Int) : Nat → List Bool → List Bool
  | _, [] => []
  | j, _ :: ds => decide ((j : Int) = activeIndex) :: toggleDots activeIndex (j + 1) ds

/-- The method `updateActiveDot(activeIndex)`. -/
def updateActiveDot (s : Controller) (activeIndex : Int) : Controller :=
  { s with navDots := toggleDots activeIndex 0 s.navDots }

/-- The method `updateScrollPosition()`: `translateX = -currentPanel * 100`. -/
def updateScrollPosition (s : Controller) : Controller :=
  let s1 := { s with transformVw := some (-s.currentPanel * 100) }
  let s2 := updateProgressBar s1
  updateActiveDot s2 s2.currentPanel

/-- The method `scrollToPanel(panelIndex)` for an integer argument.  The rose
burst it schedules only appends particles to `document.body`
(see `ParticleWorld`). -/
def scrollToPanel (s : Controller) (panelIndex : Int) : Controller :=
  if panelIndex < 0 ∨ panelIndex ≥ s.totalPanels then s
  else updateScrollPosition { s with currentPanel := panelIndex }

/-- The method `nextPanel()`. -/
def nextPanel (s : Controller) : Controller :=
  if s.currentPanel < s.totalPanels - 1 then
    updateScrollPosition { s with currentPanel := s.currentPanel + 1 }
  else s

/-- The method `prevPanel()`. -/
def prevPanel (s : Controller) : Controller :=
  if s.currentPanel > 0 then
    updateScrollPosition { s with currentPanel := s.currentPanel - 1 }
  else s

/-- The lookup `this.panels[panelIndex]` for an integer index. -/
def panelAt (panels : List Panel) (panelIndex : Int) : Option Panel :=
  if panelIndex < 0 then none else panels[panelIndex.toNat]?

/-- The loop "Reset all panels' animations" of `triggerPanelAnimations` from
position `j` on: every panel other than `panelIndex` gets opacity `0` and loses
`visible` on all its animatable elements. -/
def resetOthers (panelIndex : Int) : Nat → List Panel → List Panel
  | _, [] => []
  | j, p :: ps =>
    (if (j : Int) ≠ panelIndex then
        { opacity := 0, elements := p.elements.map fun _ => false }
      else p) :: resetOthers panelIndex (j + 1) ps

/-- The loop over `animatableElements` of `triggerPanelAnimations` from
position `k` on: an element without `visible` gets a timer with delay
`index * 150`. -/
def scheduleReveals (now panel : Nat) : Nat → List Bool → List RevealTimer
  | _, [] => []
  | k, v :: vs =>
    (if v then [] else [{ due := now + k * 150, panel := panel, elem := k }])
      ++ scheduleReveals now panel (k + 1) vs

/-- The method `triggerPanelAnimations(panelIndex)` for an integer argument.
The rose bursts and showers it requests only append particles to
`document.body` (see `ParticleWorld`). -/
def triggerPanelAnimations (s : Controller) (panelIndex : Int) : Controller :=
  match panelAt s.panels panelIndex with
  | none => s
  | some _ =>
    let shown := modifyAt (fun p => { p with opacity := 1 }) panelIndex.toNat s.panels
    let reset := resetOthers panelIndex 0 shown
    let animatable := ((panelAt reset panelIndex).map Panel.elements).getD []
    { s with
      panels := reset
      timers := s.timers ++ scheduleReveals s.now panelIndex.toNat 0 animatable }

/-- The callback of a reveal timer: `element.classList.add('visible')`. -/
def revealAt (panels : List Panel) (p k : Nat) : List Panel :=
  modifyAt (fun pn => { pn with elements := pn.elements.set k true }) p panels

/-- Lets the clock reach `t`: the pending timers with due time at most `t` fire,
earliest first and in registration order among equal due times. -/
def runTimers (t : Nat) (s : Controller) : Controller :=
  let fired := (s.timers.filter fun tm => tm.due ≤ t).insertionSort fun a b => a.due ≤ b.due
  { s with
    panels := fired.foldl (fun ps tm => revealAt ps tm.panel tm.elem) s.panels
    timers := s.timers.filter fun tm => ¬ tm.due ≤ t
    now := max s.now t }

/-- Lets `dt` milliseconds pass. -/
def advance (dt : Nat) (s : Controller) : Controller :=
  runTimers (s.now + dt) s

/-- Lets every pending timer fire. -/
def settle (s : Controller) : Controller :=
  runTimers (s.timers.foldl (fun m tm => max m tm.due) s.now) s

/-- The function `Math.round` on an exact rational: the nearest integer, halves
rounded up. -/
def mathRound (q : ℚ) : Int :=
  ⌊q + 1 / 2⌋

/-- The interval callback of `updatePanelTracking` for an observed computed
transform and `window.innerWidth`.  With `panelWidth = 0` the quotient is
`Infinity` or `NaN`, which fails the range test. -/
def updatePanelTrackingTick (s : Controller) (transform : ComputedTransform)
    (panelWidth : ℚ) : Controller :=
  match transform with
  | none => s
  | some translateX =>
    if panelWidth = 0 then s
    else
      let currentPanelIndex := mathRound (|translateX| / panelWidth)
      if currentPanelIndex ≠ s.currentPanel ∧ currentPanelIndex ≥ 0
          ∧ currentPanelIndex < s.totalPanels then
        updateActiveDot
          (triggerPanelAnimations { s with currentPanel := currentPanelIndex } currentPanelIndex)
          currentPanelIndex
      else s

/-- The interval callback of `observeScrollPosition` for an observed computed
transform. -/
def observeScrollPositionTick (s : Controller) (transform : ComputedTransform) : Controller :=
  if some transform ≠ s.lastTransform then
    updateProgressBar { s with lastTransform := some transform }
  else s

/-- One firing of the two 100 ms intervals: `observeScrollPosition` was
registered first (`setupProgressBar`), `updatePanelTracking` second
(`setupIntersectionObserver`). -/
def pollTick (s : Controller) (transform : ComputedTransform) (panelWidth : ℚ) : Controller :=
  updatePanelTrackingTick (observeScrollPositionTick s transform) transform panelWidth

/-- The events that drive a controller. -/
inductive Op where
  | next
  | prev
  | scrollTo (panelIndex : Int)
  | track (transform : ComputedTransform) (panelWidth : ℚ)
  | observe (transform : ComputedTransform)
  | trigger (panelIndex : Int)
  | wait (dt : Nat)

/-- Effect of one event. -/
def Op.apply (s : Controller) : Op → Controller
  | .next => nextPanel s
  | .prev => prevPanel s
  | .scrollTo i => scrollToPanel s i
  | .track tr w => updatePanelTrackingTick s tr w
  | .observe tr => observeScrollPositionTick s tr
  | .trigger i => triggerPanelAnimations s i
  | .wait dt => advance dt s

/-- Effect of a sequence of events, first event first. -/
def runOps (s : Controller) (ops : List Op) : Controller :=
  ops.foldl Op.apply s

/-- Whether element `k` of panel `p` carries the class `visible`. -/
def isVisible (panels : List Panel) (p k : Nat) : Bool :=
  match panels[p]? with
  | none => false
  | some pn => (pn.elements[k]?).getD false

/-- Whether panel `p` exists and has an animatable element at position `k`. -/
def hasElem (panels : List Panel) (p k : Nat) : Bool :=
  match panels[p]? with
  | none => false
  | some pn => decide (k < pn.elements.length)

/-- Number of navigation dots carrying the class `active`. -/
def activeDots (s : Controller) : Nat :=
  s.navDots.count true

/-- A document with four panels (two, two, one and no animatable elements, none
of them visible yet). -/
def samplePanels : List Panel :=
  [⟨0, [false, false]⟩, ⟨0, [false, false]⟩, ⟨0, [false]⟩, ⟨0, []⟩]

/-- The state `Controller.create samplePanels [true, false, false, false]`
written out. -/
def sampleController : Controller :=
  { panels := [⟨1, [false, false]⟩, ⟨0, [false, false]⟩, ⟨0, [false]⟩, ⟨0, []⟩]
    navDots := [true, false, false, false]
    progressWidth := none
    transformVw := none
    currentPanel := 0
    totalPanels := 4
    lastTransform := none
    timers := []
    now := 0 }

/-- The sample controller after one firing of the polling intervals that
observed `m41 = -1000` at `innerWidth = 1000`. -/
def polledController : Controller :=
  { panels := [⟨0, [false, false]⟩, ⟨1, [false, false]⟩, ⟨0, [false]⟩, ⟨0, []⟩]
    navDots := [false, true, false, false]
    progressWidth := some 0
    transformVw := none
    currentPanel := 1
    totalPanels := 4
    lastTransform := some (some (-1000))
    timers := [⟨0, 1, 0⟩, ⟨150, 1, 1⟩]
    now := 0 }

/-- The range invariant of the panel index. -/
def InRange (s : Controller) : Prop :=
  0 ≤ s.currentPanel ∧ s.currentPanel ≤ s.totalPanels - 1

/-- The view shows the stored index: offset `-100 * currentPanel` vw, progress
`100 * currentPanel / (totalPanels - 1)` percent, and dot `j` active exactly
when `j = currentPanel`. -/
def ViewConsistent (s : Controller) : Prop :=
  s.transformVw = some (-100 * s.currentPanel) ∧
  s.progressWidth = some (100 * (s.currentPanel : ℚ) / ((s.totalPanels : ℚ) - 1)) ∧
  ∀ j : Nat, j < s.navDots.length → (s.navDots.getD j false = true ↔ (j : Int) = s.currentPanel)

/-- The index `i` clamped into `[0, total - 1]`. -/
def clampIndex (i total : Int) : Int :=
  max 0 (min i (total - 1))

/-! ## Fire-and-forget particles -/

/-- A pending `setTimeout(() => node.remove(), lifetime)`. -/
structure RemovalTimer where
  due : Nat
  node : Nat
deriving DecidableEq

/-- The decorative particles: `attached` lists the particle elements that are
children of `document.body` (an element is named by the number of
`createElement` calls before it), `timers` the pending removal callbacks. -/
structure ParticleWorld where
  now : Nat
  nextId : Nat
  attached : List Nat
  timers : List RemovalTimer
deriving DecidableEq

/-- The page before any particle was spawned. -/
def ParticleWorld.empty : ParticleWorld :=
  { now := 0, nextId := 0, attached := [], timers := [] }

/-- The common shape of every spawner: `createElement`, `appendChild` to the
body, `setTimeout(() => node.remove(), lifetime)`.  Size, icon and position are
random and do not influence whether the node is attached. -/
def appendWithRemoval (lifetime : Nat) (w : ParticleWorld) : ParticleWorld :=
  { w with
    nextId := w.nextId + 1
    attached := w.attached ++ [w.nextId]
    timers := w.timers ++ [{ due := w.now + lifetime, node := w.nextId }] }

/-- The fallback `roseSystem.createParticle` of the controller:
`setTimeout(() => rose.remove(), 4000)`. -/
def roseSystemCreateParticle (w : ParticleWorld) : ParticleWorld :=
  appendWithRemoval 4000 w

/-- The method `SimpleRoseParticleSystem.createParticle`:
`setTimeout(() => rose.remove(), 4000)`. -/
def simpleCreateParticle (w : ParticleWorld) : ParticleWorld :=
  appendWithRemoval 4000 w

/-- One rose of the click burst in `setupClickInteractions`:
`setTimeout(() => rose.remove(), 2000)`. -/
def clickBurstRose (w : ParticleWorld) : ParticleWorld :=
  appendWithRemoval 2000 w

/-- The function `createFloatingHeart`: `setTimeout(() => heart.remove(), 3000)`. -/
def createFloatingHeart (w : ParticleWorld) : ParticleWorld :=
  appendWithRemoval 3000 w

/-- One rose of the shower in `activateNerdyMode`:
`setTimeout(() => rose.remove(), 2000)`. -/
def nerdModeRose (w : ParticleWorld) : ParticleWorld :=
  appendWithRemoval 2000 w

/-- The spawn operations. -/
inductive Spawner where
  | roseSystem
  | simpleRose
  | clickBurst
  | floatingHeart
  | nerdMode
deriving DecidableEq

/-- The delay each spawner passes to `setTimeout` for the removal. -/
def Spawner.lifetime : Spawner → Nat
  | .roseSystem => 4000
  | .simpleRose => 4000
  | .clickBurst => 2000
  | .floatingHeart => 3000
  | .nerdMode => 2000

/-- Runs a spawner. -/
def spawn (k : Spawner) (w : ParticleWorld) : ParticleWorld :=
  match k with
  | .roseSystem => roseSystemCreateParticle w
  | .simpleRose => simpleCreateParticle w
  | .clickBurst => clickBurstRose w
  | .floatingHeart => createFloatingHeart w
  | .nerdMode => nerdModeRose w

/-- The callback of a removal timer: `node.remove()`. -/
def removeNode (attached : List Nat) (node : Nat) : List Nat :=
  attached.filter fun n => n ≠ node

/-- Lets `dt` milliseconds pass: the removal timers that have become due fire,
earliest first and in registration order among equal due times. -/
def ParticleWorld.advance (dt : Nat) (w : ParticleWorld) : ParticleWorld :=
  let fired := (w.timers.filter fun tm => tm.due ≤ w.now + dt).insertionSort
    fun a b => a.due ≤ b.due
  { w with
    now := w.now + dt
    attached := fired.foldl (fun a tm => removeNode a tm.node) w.attached
    timers := w.timers.filter fun tm => ¬ tm.due ≤ w.now + dt }

/-- What happens to the particles: a spawn, or time passing. -/
inductive ParticleEvent where
  | spawn (k : Spawner)
  | wait (dt : Nat)
deriving DecidableEq

/-- Effect of one event. -/
def ParticleEvent.apply (w : ParticleWorld) : ParticleEvent → ParticleWorld
  | .spawn k => Hehe.spawn k w
  | .wait dt => w.advance dt

/-- Effect of a sequence of events, first event first. -/
def runParticles (w : ParticleWorld) (evs : List ParticleEvent) : ParticleWorld :=
  evs.foldl ParticleEvent.apply w

/-- Time elapsed since the last spawn, after one more event. -/
def ParticleEvent.elapsed (e : Nat) : ParticleEvent → Nat
  | .spawn _ => 0
  | .wait dt => e + dt

/-- Time that has passed since the last spawn of `evs` (since the start when
there is none). -/
def sinceLastSpawn (evs : List ParticleEvent) : Nat :=
  evs.foldl ParticleEvent.elapsed 0

/-- Every attached particle has a pending removal timer, and every pending
timer is due in the future, at most 4000 ms after the last spawn (`e` is the
time elapsed since then). -/
def ParticleInv (w : ParticleWorld) (e : Nat) : Prop :=
  (∀ n ∈ w.attached, ∃ tm ∈ w.timers, tm.node = n) ∧
  ∀ tm ∈ w.timers, w.now < tm.due ∧ tm.due + e ≤ w.now + 4000

/-! ## Catch game -/

/-- A `vegetableObj` with its element: the `caught` property and whether the
element still has a parent node.  An object is named by its position in
`Game.objects`. -/
structure Vegetable where
  caught : Bool
  inDom : Bool
deriving DecidableEq

/-- The closure state of `initHeartGame`: `score`, `gameRunning`, the array
`vegetables` (references to objects) and every object created so far. -/
structure Game where
  score : Nat
  gameRunning : Bool
  objects : List Vegetable
  vegetables : List Nat
deriving DecidableEq

/-- The state when `initHeartGame` returns. -/
def Game.init : Game :=
  { score := 0, gameRunning := false, objects := [], vegetables := [] }

/-- The property `vegetableObj.caught` of object `id`. -/
def isCaught (objects : List Vegetable) (id : Nat) : Bool :=
  match objects[id]? with
  | none => false
  | some o => o.caught

/-- The function `spawnVegetable`: a new element is appended to the container
and a new object with `caught: false` is pushed to `vegetables`. -/
def spawnVegetable (g : Game) : Game :=
  if ¬ g.gameRunning then g
  else
    { g with
      objects := g.objects ++ [{ caught := false, inDom := true }]
      vegetables := g.vegetables ++ [g.objects.length] }

/-- The 3500 ms callback registered by `spawnVegetable` for object `id`:
`if (vegetable.parentNode && !vegetableObj.caught)` the element is removed and
the object filtered out of `vegetables`. -/
def expireVegetable (g : Game) (id : Nat) : Game :=
  match g.objects[id]? with
  | none => g
  | some o =>
    if o.inDom ∧ ¬ o.caught then
      { g with
        objects := modifyAt (fun o => { o with inDom := false }) id g.objects
        vegetables := g.vegetables.filter fun v => v ≠ id }
    else g

/-- The branch of `checkCollisions` taken on an overlap: `caught = true`,
`element.remove()`, the object is filtered out of `vegetables`, `score += 1`. -/
def catchVegetable (g : Game) (id : Nat) : Game :=
  { g with
    objects := modifyAt (fun _ => { caught := true, inDom := false }) id g.objects
    vegetables := g.vegetables.filter fun v => v ≠ id
    score := g.score + 1 }

/-- The body of the `forEach` in `checkCollisions` for object `id`; `overlaps`
is the outcome of the rectangle test against the basket. -/
def collide (overlaps : Nat → Bool) (g : Game) (id : Nat) : Game :=
  match g.objects[id]? with
  | none => g
  | some o =>
    if o.caught then g
    else if overlaps id then catchVegetable g id
    else g

/-- The function `checkCollisions`: `forEach` walks the array it was called
on, while the body rebinds `vegetables` to filtered copies. -/
def checkCollisions (g : Game) (overlaps : Nat → Bool) : Game :=
  g.vegetables.foldl (collide overlaps) g

/-- The function `startGame` up to the registration of its timers. -/
def startGame (g : Game) : Game :=
  if g.gameRunning then g
  else
    { score := 0
      gameRunning := true
      objects := g.vegetables.foldl
        (fun os id => modifyAt (fun o => { o with inDom := false }) id os) g.objects
      vegetables := [] }

/-- What happens during a round. -/
inductive GameEvent where
  | spawn
  | expire (id : Nat)
  | check (overlaps : Nat → Bool)

/-- Effect of one event. -/
def GameEvent.apply (g : Game) : GameEvent → Game
  | .spawn => spawnVegetable g
  | .expire id => expireVegetable g id
  | .check overlaps => checkCollisions g overlaps

/-- Effect of a sequence of events, first event first. -/
def runGame (g : Game) (evs : List GameEvent) : Game :=
  evs.foldl GameEvent.apply g

/-- Number of objects whose `caught` property is set. -/
def caughtCount (objects : List Vegetable) : Nat :=
  objects.countP fun o => o.caught

/-- The array `vegetables` holds pairwise different objects, all of them
existing and not caught. -/
def GameInv (g : Game) : Prop :=
  g.vegetables.Nodup ∧
  ∀ id ∈ g.vegetables, id < g.objects.length ∧ isCaught g.objects id = false

/-- A round is running, the array is well formed, and the score is the number of
objects caught beyond the `c0` that were already caught when the round began. -/
def RoundInv (c0 : Nat) (g : Game) : Prop :=
  GameInv g ∧ g.gameRunning = true ∧ g.score + c0 = caughtCount g.objects

/-! ## Input sources: swipe and wheel -/

/-- Which navigation method an input handler calls. -/
inductive NavCall where
  | next
  | prev
deriving DecidableEq

/-- Performs the call an input handler decided on, if any. -/
def performCall (s : Controller) : Option NavCall → Controller
  | some .next => nextPanel s
  | some .prev => prevPanel s
  | none => s

/-- The decision taken by `handleSwipe(startX, endX)`.  `sub` is the
subtraction of the number type (IEEE doubles in the browser), so that
`diff = sub startX endX` is the value the code computes for `startX - endX`,
rounding included; `Math.abs` and the comparisons are exact on it.  With that
`diff`: `nextPanel()` if `Math.abs(diff) > 50` and `diff > 0`, `prevPanel()` if
`Math.abs(diff) > 50` and not `diff > 0`, no call otherwise. -/
def handleSwipeCall (sub : ℚ → ℚ → ℚ) (startX endX : ℚ) : Option NavCall :=
  let swipeThreshold : ℚ := 50
  let diff := sub startX endX
  if |diff| > swipeThreshold then
    if diff > 0 then some .next else some .prev
  else none

/-- The method `handleSwipe(startX, endX)`, with `sub` as in `handleSwipeCall`. -/
def handleSwipe (sub : ℚ → ℚ → ℚ) (s : Controller) (startX endX : ℚ) : Controller :=
  performCall s (handleSwipeCall sub startX endX)

/-- The subtraction where it does not round: the exact difference, which is what
the subtraction of doubles returns whenever that difference is itself a double,
as for whole-number pixel coordinates. -/
def exactSub (a b : ℚ) : ℚ :=
  a - b

/-- The controller together with the closure variable `isScrolling` of
`setupHorizontalScrolling` and the due times of the pending
`setTimeout(() => { isScrolling = false; }, 1500)` callbacks.  The clock is the
controller's. -/
structure WheelSession where
  ctrl : Controller
  isScrolling : Bool
  resetTimers : List Nat
deriving DecidableEq

/-- The decision taken by an accepted wheel event: `nextPanel()` if
`e.deltaY > 0`, else `prevPanel()`. -/
def wheelCall (deltaY : ℚ) : NavCall :=
  if deltaY > 0 then .next else .prev

/-- The `wheel` listener of `setupHorizontalScrolling`.  The occasional rose it
creates only appends a particle to `document.body` (see `ParticleWorld`). -/
def onWheel (w : WheelSession) (deltaY : ℚ) : WheelSession :=
  if w.isScrolling then w
  else
    { ctrl := performCall w.ctrl (some (wheelCall deltaY))
      isScrolling := true
      resetTimers := w.resetTimers ++ [w.ctrl.now + 1500] }

/-- Lets `dt` milliseconds pass: the controller's reveal timers and the reset
callbacks that have become due fire; each reset callback sets
`isScrolling = false`. -/
def WheelSession.wait (dt : Nat) (w : WheelSession) : WheelSession :=
  { ctrl := advance dt w.ctrl
    isScrolling :=
      (w.resetTimers.filter fun due => due ≤ w.ctrl.now + dt).foldl (fun _ _ => false)
        w.isScrolling
    resetTimers := w.resetTimers.filter fun due => ¬ due ≤ w.ctrl.now + dt }

/-- What happens to the wheel listener: a wheel event, or time passing. -/
inductive WheelEvent where
  | wheel (deltaY : ℚ)
  | wait (dt : Nat)

/-- Effect of one event. -/
def WheelEvent.apply (w : WheelSession) : WheelEvent → WheelSession
  | .wheel deltaY => onWheel w deltaY
  | .wait dt => w.wait dt

/-- Effect of a sequence of events, first event first. -/
def runWheel (w : WheelSession) (evs : List WheelEvent) : WheelSession :=
  evs.foldl WheelEvent.apply w

/-- Time that passes during one event. -/
def WheelEvent.duration : WheelEvent → Nat
  | .wheel _ => 0
  | .wait dt => dt

/-- Time that passes during a sequence of events. -/
def wheelTime (evs : List WheelEvent) : Nat :=
  (evs.map WheelEvent.duration).sum

/-- The wheel listener on the sample controller, before any wheel event. -/
def sampleWheel : WheelSession :=
  { ctrl := sampleController, isScrolling := false, resetTimers := [] }

/-- The listener as `setupHorizontalScrolling` leaves it on controller `c`:
`isScrolling = false` and no reset callback pending. -/
def WheelSession.fresh (c : Controller) : WheelSession :=
  { ctrl := c, isScrolling := false, resetTimers := [] }

/-- Either no debounce window is open and no reset callback is pending, or a
window is open and exactly one reset callback is pending, due in the future. -/
def WheelSession.WellTimed (w : WheelSession) : Prop :=
  (w.isScrolling = false ∧ w.resetTimers = []) ∨
  (w.isScrolling = true ∧ ∃ t, w.resetTimers = [t] ∧ w.ctrl.now < t)

/-! ## Catch game: rounds -/

/-- The catch game with its clock, timers and start button: `intervals` are the
handles of the active `setInterval(spawnVegetable, 800)` registrations,
`vegetableSpawnInterval` the variable holding the last handle, `endTimers` the
due times of the pending 30000 ms callbacks of `startGame`. -/
structure GameSession where
  game : Game
  now : Nat
  startBtnDisabled : Bool
  nextHandle : Nat
  vegetableSpawnInterval : Option Nat
  intervals : List Nat
  endTimers : List Nat
deriving DecidableEq

/-- The state when `initHeartGame` returns. -/
def GameSession.init : GameSession :=
  { game := Game.init, now := 0, startBtnDisabled := false, nextHandle := 0,
    vegetableSpawnInterval := none, intervals := [], endTimers := [] }

/-- The whole of `startGame` (the click listener of the start button): the reset
of `Hehe.startGame`, `startBtn.disabled = true`, the spawn interval and the
30000 ms timer.  The `gameLoop()` call it makes finds `vegetables` empty. -/
def GameSession.startGame (s : GameSession) : GameSession :=
  if s.game.gameRunning then s
  else
    { game := Hehe.startGame s.game
      now := s.now
      startBtnDisabled := true
      nextHandle := s.nextHandle + 1
      vegetableSpawnInterval := some s.nextHandle
      intervals := s.intervals ++ [s.nextHandle]
      endTimers := s.endTimers ++ [s.now + 30000] }

/-- The call `clearInterval(handle)`. -/
def clearInterval (handle : Option Nat) (intervals : List Nat) : List Nat :=
  match handle with
  | none => intervals
  | some h => intervals.filter fun i => i ≠ h

/-- The 30000 ms callback of `startGame`: `if (gameRunning)` the spawn interval
is cleared, `gameRunning = false`, the start button is enabled again. -/
def endRound (s : GameSession) : GameSession :=
  if s.game.gameRunning then
    { s with
      game := { s.game with gameRunning := false }
      intervals := clearInterval s.vegetableSpawnInterval s.intervals
      startBtnDisabled := false }
  else s

/-- The function `gameLoop` for one animation frame. -/
def gameLoop (g : Game) (overlaps : Nat → Bool) : Game :=
  if ¬ g.gameRunning then g else checkCollisions g overlaps

/-- What happens to the game. -/
inductive SessionEvent where
  | clickStart
  | wait (dt : Nat)
  | spawnTick (handle : Nat)
  | expire (id : Nat)
  | frame (overlaps : Nat → Bool)

/-- Effect of one event.  Time passing fires the end-of-round callbacks that
have become due; a tick of a spawn interval only happens while the interval is
registered. -/
def SessionEvent.apply (s : GameSession) : SessionEvent → GameSession
  | .clickStart => s.startGame
  | .wait dt =>
    (s.endTimers.filter fun due => due ≤ s.now + dt).foldl (fun u _ => endRound u)
      { s with
        now := s.now + dt
        endTimers := s.endTimers.filter fun due => ¬ due ≤ s.now + dt }
  | .spawnTick handle =>
    if handle ∈ s.intervals then { s with game := spawnVegetable s.game } else s
  | .expire id => { s with game := expireVegetable s.game id }
  | .frame overlaps => { s with game := gameLoop s.game overlaps }

/-- Effect of a sequence of events, first event first. -/
def runSession (s : GameSession) (evs : List SessionEvent) : GameSession :=
  evs.foldl SessionEvent.apply s

/-- Time that passes during one event. -/
def SessionEvent.duration : SessionEvent → Nat
  | .wait dt => dt
  | _ => 0

/-- Time that passes during a sequence of events. -/
def sessionTime (evs : List SessionEvent) : Nat :=
  (evs.map SessionEvent.duration).sum

/-- No round is running and no timer or interval of a round is pending: the
state before the first round and after the end of each round. -/
def GameSession.Idle (s : GameSession) : Prop :=
  s.game.gameRunning = false ∧ s.endTimers = [] ∧ s.intervals = []

/-- A round is running that ends at time `t`. -/
def GameSession.RunningUntil (t : Nat) (s : GameSession) : Prop :=
  s.game.gameRunning = true ∧ s.endTimers = [t] ∧ s.now < t ∧
    s.startBtnDisabled = true ∧
    ∃ h, s.vegetableSpawnInterval = some h ∧ s.intervals = [h]

/-- Either no round is running, or one is running with its end timer pending. -/
def GameSession.WellTimed (s : GameSession) : Prop :=
  s.Idle ∨ ∃ t, s.RunningUntil t

/-! ## 3D particle field -/

/-- A `Particle3D`; `color` is the position in `colors`. -/
structure Particle3D where
  x : ℚ
  y : ℚ
  z : ℚ
  pz : ℚ
  color : Nat
  size : ℚ
  speed : ℚ
deriving DecidableEq

/-- The values of the six `Math.random()` calls of one `reset()`, in the order
of the calls. -/
structure Draws where
  rx : ℚ
  ry : ℚ
  rz : ℚ
  rcolor : ℚ
  rsize : ℚ
  rspeed : ℚ
deriving DecidableEq

/-- What `Math.random()` guarantees: every value is in `[0, 1)`. -/
def Draws.Valid (d : Draws) : Prop :=
  (0 ≤ d.rx ∧ d.rx < 1) ∧ (0 ≤ d.ry ∧ d.ry < 1) ∧ (0 ≤ d.rz ∧ d.rz < 1) ∧
  (0 ≤ d.rcolor ∧ d.rcolor < 1) ∧ (0 ≤ d.rsize ∧ d.rsize < 1) ∧ (0 ≤ d.rspeed ∧ d.rspeed < 1)

/-- The method `Particle3D.reset()`; every field is overwritten, so the result
does not depend on the particle.  `colors` has five entries. -/
def Particle3D.reset (width height : ℚ) (d : Draws) : Particle3D :=
  { x := (d.rx - 1 / 2) * width * 2
    y := (d.ry - 1 / 2) * height * 2
    z := d.rz * 1000
    pz := d.rz * 1000
    color := ⌊d.rcolor * 5⌋.toNat
    size := d.rsize * 3 + 1
    speed := d.rspeed * 2 + 1 }

/-- The method `Particle3D.update()`; `d` holds the random values used if the
particle is reset. -/
def Particle3D.update (width height : ℚ) (d : Draws) (p : Particle3D) : Particle3D :=
  let p1 := { p with z := p.z - p.speed }
  if p1.z < 1 then
    { Particle3D.reset width height d with z := 1000, pz := 1000 }
  else p1

/-- What one `draw()` call computes: the depth it divides by, the projected
position, the radius, the alpha factor `1 - z / 1000`, and whether the dot and
the trail pass their on-screen tests. -/
structure DrawCall where
  z : ℚ
  sx : ℚ
  sy : ℚ
  size : ℚ
  alpha : ℚ
  dot : Bool
  trail : Bool
deriving DecidableEq

/-- The computations of `Particle3D.draw()`. -/
def Particle3D.drawCall (width height : ℚ) (p : Particle3D) : DrawCall :=
  let sx := p.x / p.z * 500 + width / 2
  let sy := p.y / p.z * 500 + height / 2
  let px := p.x / p.pz * 500 + width / 2
  let py := p.y / p.pz * 500 + height / 2
  { z := p.z
    sx := sx
    sy := sy
    size := (1 - p.z / 1000) * p.size * 4
    alpha := 1 - p.z / 1000
    dot := decide (sx > 0 ∧ sx < width ∧ sy > 0 ∧ sy < height)
    trail := decide (px > 0 ∧ px < width ∧ py > 0 ∧ py < height) }

/-- The state change of `Particle3D.draw()`: `this.pz = this.z`. -/
def Particle3D.draw (p : Particle3D) : Particle3D :=
  { p with pz := p.z }

/-- The loop `particles.forEach(p => { p.update(); p.draw(); })` from position `i`
on: the particles afterwards and the draw calls in the order they were made.
`rand i` are the random values available to the particle at position `i`. -/
def updateAndDraw (width height : ℚ) (rand : Nat → Draws) :
    Nat → List Particle3D → List Particle3D × List DrawCall
  | _, [] => ([], [])
  | i, p :: ps =>
    let p1 := Particle3D.update width height (rand i) p
    let rest := updateAndDraw width height rand (i + 1) ps
    (p1.draw :: rest.1, p1.drawCall width height :: rest.2)

/-- The call `particles.sort((a, b) => b.z - a.z)`: descending `z`, stable. -/
def sortByDepth (particles : List Particle3D) : List Particle3D :=
  particles.insertionSort fun a b => a.z ≥ b.z

/-- One frame of `animate()`: sort, then update and draw every particle. -/
def animate (width height : ℚ) (rand : Nat → Draws) (particles : List Particle3D) :
    List Particle3D × List DrawCall :=
  updateAndDraw width height rand 0 (sortByDepth particles)

/-- The constant `particleCount`. -/
def particleCount : Nat := 150

/-- The loop that creates the particles: `particleCount` times
`new Particle3D()`, which is `reset()`. -/
def createParticles (width height : ℚ) (rand : Nat → Draws) : List Particle3D :=
  (List.range particleCount).map fun i => Particle3D.reset width height (rand i)

/-- The particles after `n` frames; `rand 0` feeds the creation and `rand (k + 1)`
frame `k`. -/
def particlesAfter (width height : ℚ) (rand : Nat → Nat → Draws) : Nat → List Particle3D
  | 0 => createParticles width height (rand 0)
  | n + 1 => (animate width height (rand (n + 1)) (particlesAfter width height rand n)).1

/-- Values of `Math.random()` for a particle created far away: `z = 500`,
`speed = 1`. -/
def farDraws : Draws :=
  { rx := 0, ry := 0, rz := 1 / 2, rcolor := 0, rsize := 0, rspeed := 0 }

/-- Values of `Math.random()` for a particle created at `z = 25/2` with
`speed = 5/2`. -/
def fastDraws : Draws :=
  { rx := 0, ry := 0, rz := 1 / 80, rcolor := 0, rsize := 0, rspeed := 3 / 4 }

/-- Values of `Math.random()` for a particle created at `z = 12` with
`speed = 3/2`. -/
def slowDraws : Draws :=
  { rx := 0, ry := 0, rz := 3 / 250, rcolor := 0, rsize := 0, rspeed := 1 / 4 }

/-- Random values at creation: 148 far particles, then the fast one, then the
slow one. -/
def sampleRand (i : Nat) : Draws :=
  if i < 148 then farDraws else if i = 148 then fastDraws else slowDraws

/-- The 150 particles created on an 800 by 600 canvas from `sampleRand`. -/
def sampleField : List Particle3D :=
  createParticles 800 600 sampleRand

/-- Random values that are all zero. -/
def zeroDraws : Draws :=
  { rx := 0, ry := 0, rz := 0, rcolor := 0, rsize := 0, rspeed := 0 }

/-! ## Konami code -/

/-- The array `konamiCode`. -/
def konamiCode : List String :=
  ["ArrowUp", "ArrowUp", "ArrowDown", "ArrowDown", "ArrowLeft", "ArrowRight", "ArrowLeft",
    "ArrowRight", "b", "a"]

/-- The closure variable `konamiIndex` of `setupKonamiCode`, and how often
`activateNerdyMode()` has been called. -/
structure Konami where
  konamiIndex : Nat
  activations : Nat
deriving DecidableEq

/-- The state when `setupKonamiCode` returns. -/
def Konami.init : Konami :=
  { konamiIndex := 0, activations := 0 }

/-- The `keydown` listener of `setupKonamiCode` for `e.key = key`. -/
def konamiKeydown (k : Konami) (key : String) : Konami :=
  if konamiCode[k.konamiIndex]? = some key then
    if k.konamiIndex + 1 = konamiCode.length then
      { konamiIndex := 0, activations := k.activations + 1 }
    else { k with konamiIndex := k.konamiIndex + 1 }
  else { k with konamiIndex := 0 }

/-- The listener run on a sequence of key presses, first key first. -/
def konamiRun (keys : List String) : Konami :=
  keys.foldl konamiKeydown Konami.init

/-! ## Easing functions -/

/-- The function `easing.easeOutCubic`: `1 - Math.pow(1 - t, 3)`. -/
def easeOutCubic (t : ℚ) : ℚ :=
  1 - (1 - t) ^ 3

/-- The function `easing.easeInOutCubic`:
`t < 0.5 ? 4 * t * t * t : 1 - Math.pow(-2 * t + 2, 3) / 2`. -/
def easeInOutCubic (t : ℚ) : ℚ :=
  if t < 1 / 2 then 4 * t * t * t else 1 - (-2 * t + 2) ^ 3 / 2

/-- The function `easing.easeOutBounce` with `n1 = 7.5625 = 121/16` and
`d1 = 2.75 = 11/4`; each `t -= c` rebinds `t` before the product is formed. -/
def easeOutBounce (t : ℚ) : ℚ :=
  let n1 : ℚ := 121 / 16
  let d1 : ℚ := 11 / 4
  if t < 1 / d1 then
    n1 * t * t
  else if t < 2 / d1 then
    let t1 := t - (3 / 2) / d1
    n1 * t1 * t1 + 3 / 4
  else if t < (5 / 2) / d1 then
    let t1 := t - (9 / 4) / d1
    n1 * t1 * t1 + 15 / 16
  else
    let t1 := t - (21 / 8) / d1
    n1 * t1 * t1 + 63 / 64

/-! ## Navigation: field lemmas -/

@[simp] theorem updateProgressBar_currentPanel (s : Controller) :
    (updateProgressBar s).currentPanel = s.currentPanel := rfl
@[simp] theorem updateProgressBar_totalPanels (s : Controller) :
    (updateProgressBar s).totalPanels = s.totalPanels := rfl
@[simp] theorem updateActiveDot_currentPanel (s : Controller) (a : Int) :
    (updateActiveDot s a).currentPanel = s.currentPanel := rfl
@[simp] theorem updateActiveDot_totalPanels (s : Controller) (a : Int) :
    (updateActiveDot s a).totalPanels = s.totalPanels := rfl
@[simp] theorem updateScrollPosition_currentPanel (s : Controller) :
    (updateScrollPosition s).currentPanel = s.currentPanel := rfl
@[simp] theorem updateScrollPosition_totalPanels (s : Controller) :
    (updateScrollPosition s).totalPanels = s.totalPanels := rfl

@[simp] theorem triggerPanelAnimations_currentPanel (s : Controller) (i : Int) :
    (triggerPanelAnimations s i).currentPanel = s.currentPanel := by
  unfold triggerPanelAnimations; split <;> rfl
@[simp] theorem triggerPanelAnimations_totalPanels (s : Controller) (i : Int) :
    (triggerPanelAnimations s i).totalPanels = s.totalPanels := by
  unfold triggerPanelAnimations; split <;> rfl

theorem op_totalPanels (s : Controller) (op : Op) :
    (op.apply s).totalPanels = s.totalPanels := by
  cases op with
  | next => simp only [Op.apply, nextPanel]; split <;> simp
  | prev => simp only [Op.apply, prevPanel]; split <;> simp
  | scrollTo i => simp only [Op.apply, scrollToPanel]; split <;> simp
  | track tr w =>
    simp only [Op.apply, updatePanelTrackingTick]
    split
    · rfl
    · split
      · rfl
      · split <;> simp
  | observe tr => simp only [Op.apply, observeScrollPositionTick]; split <;> simp
  | trigger i => simp [Op.apply]
  | wait dt => rfl

theorem op_inRange (s : Controller) (op : Op) (h : InRange s) : InRange (op.apply s) := by
  unfold InRange at *
  cases op with
  | next =>
    simp only [Op.apply, nextPanel]; split
    · simp; omega
    · exact h
  | prev =>
    simp only [Op.apply, prevPanel]; split
    · simp; omega
    · exact h
  | scrollTo i =>
    simp only [Op.apply, scrollToPanel]; split
    · exact h
    · simp; omega
  | track tr w =>
    simp only [Op.apply, updatePanelTrackingTick]
    split
    · exact h
    · split
      · exact h
      · split
        · simp; omega
        · exact h
  | observe tr =>
    simp only [Op.apply, observeScrollPositionTick]; split
    · simpa using h
    · exact h
  | trigger i => simpa [Op.apply] using h
  | wait dt => exact h

theorem runOps_inRange (ops : List Op) (s : Controller) (h : InRange s) :
    InRange (runOps s ops) ∧ (runOps s ops).totalPanels = s.totalPanels := by
  induction ops generalizing s with
  | nil => exact ⟨h, rfl⟩
  | cons op ops ih =>
    have h1 := ih (op.apply s) (op_inRange s op h)
    rw [op_totalPanels] at h1
    exact h1

/-- C1: from `currentPanel = 0` with `totalPanels = 4`, after any finite sequence
of `nextPanel()`, `prevPanel()`, `scrollToPanel(i)` with any integer `i`, polling
steps of `updatePanelTracking` and `observeScrollPosition` with any observed
transform and width, `triggerPanelAnimations` calls and timer firings, the
current panel is an integer in `[0, totalPanels - 1]`. -/
theorem currentPanel_in_range (s0 : Controller) (ops : List Op)
    (h0 : s0.currentPanel = 0) (h4 : s0.totalPanels = 4) :
    0 ≤ (runOps s0 ops).currentPanel ∧
      (runOps s0 ops).currentPanel ≤ (runOps s0 ops).totalPanels - 1 ∧
      (runOps s0 ops).totalPanels = 4 := by
  have h := runOps_inRange ops s0 ⟨by omega, by omega⟩
  exact ⟨h.1.1, h.1.2, h.2.trans h4⟩

/-- Witness of C1 on the sample controller and a run that passes both ends of
the range. -/
theorem currentPanel_in_range_witness :
    0 ≤ (runOps sampleController
          [.prev, .scrollTo 9, .next, .track (some (-2600)) 1000, .next, .next]).currentPanel ∧
      (runOps sampleController
          [.prev, .scrollTo 9, .next, .track (some (-2600)) 1000, .next, .next]).currentPanel
        ≤ (runOps sampleController
          [.prev, .scrollTo 9, .next, .track (some (-2600)) 1000, .next, .next]).totalPanels - 1 ∧
      (runOps sampleController
          [.prev, .scrollTo 9, .next, .track (some (-2600)) 1000, .next, .next]).totalPanels = 4 :=
  currentPanel_in_range sampleController _ (by decide) (by decide)

theorem create_sample :
    Controller.create samplePanels [true, false, false, false] = some sampleController := by
  decide

/-- C2: `nextPanel()` moves to `currentPanel + 1` below the last panel and
changes nothing (index, transform, progress bar, dots) at the last panel;
`prevPanel()` moves to `currentPanel - 1` above panel 0 and changes nothing at
panel 0.  From panel 0 of 4, three `nextPanel()` calls give index 3 and
progress 100 percent, and a fourth call leaves the state as it is. -/
theorem next_prev_no_wraparound (s s0 : Controller)
    (h0 : s0.currentPanel = 0) (h4 : s0.totalPanels = 4) :
    (s.currentPanel < s.totalPanels - 1 → (nextPanel s).currentPanel = s.currentPanel + 1) ∧
    (s.currentPanel = s.totalPanels - 1 → nextPanel s = s) ∧
    (s.currentPanel > 0 → (prevPanel s).currentPanel = s.currentPanel - 1) ∧
    (s.currentPanel = 0 → prevPanel s = s) ∧
    (nextPanel (nextPanel (nextPanel s0))).currentPanel = 3 ∧
    (nextPanel (nextPanel (nextPanel s0))).progressWidth = some 100 ∧
    nextPanel (nextPanel (nextPanel (nextPanel s0))) = nextPanel (nextPanel (nextPanel s0)) := by
  have step : ∀ t : Controller, t.currentPanel < t.totalPanels - 1 →
      (nextPanel t).currentPanel = t.currentPanel + 1 ∧ (nextPanel t).totalPanels = t.totalPanels ∧
      (nextPanel t).progressWidth
        = some (((t.currentPanel + 1 : Int) : ℚ) / ((t.totalPanels - 1 : Int) : ℚ) * 100) := by
    intro t ht
    simp [nextPanel, ht, updateScrollPosition, updateProgressBar, updateActiveDot]
  have stay : ∀ t : Controller, t.currentPanel = t.totalPanels - 1 → nextPanel t = t := by
    intro t ht
    simp [nextPanel, ht]
  refine ⟨fun h => (step s h).1, stay s, ?_, ?_, ?_⟩
  · intro h
    simp [prevPanel, h]
  · intro h
    simp [prevPanel, h]
  · obtain ⟨a1, a2, _⟩ := step s0 (by omega)
    obtain ⟨b1, b2, _⟩ := step (nextPanel s0) (by omega)
    obtain ⟨c1, c2, c3⟩ := step (nextPanel (nextPanel s0)) (by omega)
    refine ⟨by omega, ?_, stay _ (by omega)⟩
    rw [c3, b1, a1, h0, b2, a2, h4]
    norm_num

/-- Witness of C2 on the sample controller. -/
theorem next_prev_no_wraparound_witness :
    (nextPanel sampleController).currentPanel = sampleController.currentPanel + 1 ∧
      prevPanel sampleController = sampleController ∧
      (nextPanel (nextPanel (nextPanel sampleController))).currentPanel = 3 :=
  have h := next_prev_no_wraparound sampleController sampleController (by decide) (by decide)
  ⟨h.1 (by decide), h.2.2.2.1 (by decide), h.2.2.2.2.1⟩

/-- C3 as stated fails: on the freshly created sample controller (panel 0 of 4)
`scrollToPanel(7)` leaves the index at 0, while 7 clamped into `[0, 3]` is 3. -/
theorem scrollToPanel_clamp_counterexample :
    (scrollToPanel sampleController 7).currentPanel = 0 ∧
      clampIndex 7 sampleController.totalPanels = 3 ∧
      (scrollToPanel sampleController 7).currentPanel
        ≠ clampIndex 7 sampleController.totalPanels := by
  decide

/-- C3 amended: `scrollToPanel(index)` makes an in-range integer index
(`0 ≤ index ≤ totalPanels - 1`) the current panel, and for `index < 0` or
`index ≥ totalPanels` it returns without changing anything. -/
theorem scrollToPanel_in_range_or_noop (s : Controller) (index : Int) :
    (0 ≤ index ∧ index ≤ s.totalPanels - 1 → (scrollToPanel s index).currentPanel = index) ∧
    (index < 0 ∨ index ≥ s.totalPanels → scrollToPanel s index = s) := by
  constructor
  · rintro ⟨h1, h2⟩
    have : ¬ (index < 0 ∨ index ≥ s.totalPanels) := by omega
    simp [scrollToPanel, this]
  · intro h
    simp [scrollToPanel, h]

/-- Witness of the amended C3 on the sample controller. -/
theorem scrollToPanel_in_range_or_noop_witness :
    (scrollToPanel sampleController 2).currentPanel = 2 ∧
      scrollToPanel sampleController 7 = sampleController ∧
      scrollToPanel sampleController (-1) = sampleController :=
  ⟨(scrollToPanel_in_range_or_noop sampleController 2).1 (by decide),
   (scrollToPanel_in_range_or_noop sampleController 7).2 (by decide),
   (scrollToPanel_in_range_or_noop sampleController (-1)).2 (by decide)⟩

/-! ## Navigation: the view -/

theorem length_toggleDots (a : Int) (ds : List Bool) (j : Nat) :
    (toggleDots a j ds).length = ds.length := by
  induction ds generalizing j with
  | nil => rfl
  | cons d ds ih => simp [toggleDots, ih]

theorem getD_toggleDots (a : Int) (ds : List Bool) (j i : Nat) (h : i < ds.length) :
    (toggleDots a j ds).getD i false = decide (((j + i : Nat) : Int) = a) := by
  induction ds generalizing j i with
  | nil => simp at h
  | cons d ds ih =>
    cases i with
    | zero => simp [toggleDots]
    | succ i =>
      simp only [List.length_cons, Nat.add_lt_add_iff_right] at h
      simp only [toggleDots, List.getD_cons_succ]
      rw [ih (j + 1) i h]
      congr 2
      omega

theorem count_toggleDots_of_lt (a : Int) (ds : List Bool) (j : Nat) (h : a < j) :
    (toggleDots a j ds).count true = 0 := by
  induction ds generalizing j with
  | nil => rfl
  | cons d ds ih =>
    have h1 : ¬ ((j : Int) = a) := by omega
    simp only [toggleDots, h1, decide_False]
    rw [List.count_cons_of_ne (by simp)]
    exact ih (j + 1) (by push_cast; omega)

theorem count_toggleDots (a : Int) (ds : List Bool) (j : Nat)
    (h1 : (j : Int) ≤ a) (h2 : a < ((j + ds.length : Nat) : Int)) :
    (toggleDots a j ds).count true = 1 := by
  induction ds generalizing j with
  | nil => simp at h2; omega
  | cons d ds ih =>
    by_cases hj : (j : Int) = a
    · simp only [toggleDots, hj, decide_True, List.count_cons_self]
      rw [count_toggleDots_of_lt a ds (j + 1) (by push_cast; omega)]
    · simp only [toggleDots, hj, decide_False]
      rw [List.count_cons_of_ne (by simp)]
      apply ih (j + 1)
      · push_cast; omega
      · simp only [List.length_cons] at h2
        push_cast at h2 ⊢
        omega

theorem viewConsistent_updateScrollPosition (t : Controller) :
    ViewConsistent (updateScrollPosition t) := by
  refine ⟨?_, ?_, ?_⟩
  · simp only [updateScrollPosition, updateProgressBar, updateActiveDot]
    congr 1
    ring
  · simp only [updateScrollPosition, updateProgressBar, updateActiveDot]
    congr 1
    push_cast
    ring
  · intro j hj
    simp only [updateScrollPosition, updateProgressBar, updateActiveDot] at hj ⊢
    rw [length_toggleDots] at hj
    rw [getD_toggleDots _ _ _ _ hj]
    simp

theorem activeDots_updateScrollPosition (t : Controller)
    (h1 : 0 ≤ t.currentPanel) (h2 : t.currentPanel < (t.navDots.length : Int)) :
    activeDots (updateScrollPosition t) = 1 := by
  simp only [activeDots, updateScrollPosition, updateProgressBar, updateActiveDot]
  apply count_toggleDots
  · simpa using h1
  · simpa using h2

/-- C4: after every `nextPanel()`, `prevPanel()` or in-range `scrollToPanel(i)`
that makes a transition, the container offset is `-100 * currentPanel` vw, the
progress-bar width is `100 * currentPanel / (totalPanels - 1)` percent and a
navigation dot is active exactly when its position is `currentPanel`; with the
index in range and `totalPanels` dots, exactly one dot is active. -/
theorem view_consistent_after_transition (s : Controller) (i : Int) :
    (s.currentPanel < s.totalPanels - 1 → ViewConsistent (nextPanel s)) ∧
    (s.currentPanel > 0 → ViewConsistent (prevPanel s)) ∧
    (0 ≤ i ∧ i ≤ s.totalPanels - 1 → ViewConsistent (scrollToPanel s i)) ∧
    (InRange s ∧ (s.navDots.length : Int) = s.totalPanels →
      (s.currentPanel < s.totalPanels - 1 → activeDots (nextPanel s) = 1) ∧
      (s.currentPanel > 0 → activeDots (prevPanel s) = 1) ∧
      (0 ≤ i ∧ i ≤ s.totalPanels - 1 → activeDots (scrollToPanel s i) = 1)) := by
  have hi : 0 ≤ i ∧ i ≤ s.totalPanels - 1 → ¬ (i < 0 ∨ i ≥ s.totalPanels) := by omega
  refine ⟨?_, ?_, ?_, ?_⟩
  · intro h
    simp only [nextPanel, h, if_true]
    exact viewConsistent_updateScrollPosition _
  · intro h
    simp only [prevPanel, h, if_true]
    exact viewConsistent_updateScrollPosition _
  · intro h
    simp only [scrollToPanel, hi h, if_false]
    exact viewConsistent_updateScrollPosition _
  · rintro ⟨⟨r1, r2⟩, hd⟩
    refine ⟨?_, ?_, ?_⟩
    · intro h
      simp only [nextPanel, h, if_true]
      apply activeDots_updateScrollPosition <;> simp <;> omega
    · intro h
      simp only [prevPanel, h, if_true]
      apply activeDots_updateScrollPosition <;> simp <;> omega
    · intro h
      simp only [scrollToPanel, hi h, if_false]
      apply activeDots_updateScrollPosition <;> simp <;> omega

/-- Witness of C4 on the sample controller (four dots, panel 0). -/
theorem view_consistent_after_transition_witness :
    ViewConsistent (nextPanel sampleController) ∧
      ViewConsistent (scrollToPanel sampleController 3) ∧
      activeDots (nextPanel sampleController) = 1 ∧
      activeDots (scrollToPanel sampleController 3) = 1 ∧
      ViewConsistent (prevPanel (nextPanel sampleController)) :=
  have h := view_consistent_after_transition sampleController 3
  have hr := h.2.2.2 ⟨⟨by decide, by decide⟩, by decide⟩
  ⟨h.1 (by decide), h.2.2.1 (by decide), hr.1 (by decide), hr.2.2 (by decide),
    (view_consistent_after_transition (nextPanel sampleController) 0).2.1 (by decide)⟩

/-- C5, evaluated at the failing input: on the freshly created sample controller
(panel 0, four panels) one firing of the two polling intervals that observes
`m41 = -1000` with `innerWidth = 1000` moves the index to 1 and activates dot 1,
while the progress bar is written with the old index (0 percent) and is not
written again by the tracking step; a further firing with the same transform
changes nothing, so the bar stays at 0 percent instead of `100 * 1 / 3`. -/
theorem poll_leaves_progress_stale :
    (updatePanelTrackingTick sampleController (some (-1000)) 1000).currentPanel = 1 ∧
      (updatePanelTrackingTick sampleController (some (-1000)) 1000).progressWidth
        = sampleController.progressWidth ∧
      pollTick sampleController (some (-1000)) 1000 = polledController ∧
      pollTick polledController (some (-1000)) 1000 = polledController ∧
      polledController.currentPanel = 1 ∧
      polledController.progressWidth = some 0 ∧
      polledController.progressWidth
        ≠ some (100 * (polledController.currentPanel : ℚ) / ((polledController.totalPanels : ℚ) - 1)) := by
  have hr : mathRound (|(-1000 : ℚ)| / 1000) = 1 := by
    unfold mathRound
    norm_num
  have hw : ¬ ((1000 : ℚ) = 0) := by norm_num
  have ht : updatePanelTrackingTick sampleController (some (-1000)) 1000
      = updateActiveDot (triggerPanelAnimations { sampleController with currentPanel := 1 } 1) 1 := by
    simp only [updatePanelTrackingTick, hw, if_false, hr]
    rfl
  have ho : observeScrollPositionTick sampleController (some (-1000))
      = { sampleController with progressWidth := some 0, lastTransform := some (some (-1000)) } := by
    simp [observeScrollPositionTick, sampleController, updateProgressBar]
  refine ⟨?_, ?_, ?_, ?_, rfl, rfl, ?_⟩
  · rw [ht]; decide
  · rw [ht]; rfl
  · simp only [pollTick, ho, updatePanelTrackingTick, hw, if_false, hr]
    rfl
  · have hr1 : mathRound 1 = 1 := by
      unfold mathRound
      norm_num
    simp [pollTick, observeScrollPositionTick, updatePanelTrackingTick, hr1, polledController]
  · simp only [polledController]
    norm_num

/-! ## Reveal timers -/

theorem getElem?_modifyAt {α : Type} (f : α → α) (n : Nat) (ps : List α) (m : Nat) :
    (modifyAt f n ps)[m]? = if m = n then (ps[m]?).map f else ps[m]? := by
  induction ps generalizing n m with
  | nil => cases n <;> simp [modifyAt]
  | cons p ps ih =>
    cases n with
    | zero =>
      cases m with
      | zero => simp [modifyAt]
      | succ m => simp [modifyAt]
    | succ n =>
      cases m with
      | zero => simp [modifyAt]
      | succ m => simp [modifyAt, ih]

theorem getElem?_resetOthers (a : Int) (j : Nat) (ps : List Panel) (m : Nat) :
    (resetOthers a j ps)[m]? = (ps[m]?).map fun p =>
      if ((j + m : Nat) : Int) ≠ a then { opacity := 0, elements := p.elements.map fun _ => false }
      else p := by
  induction ps generalizing j m with
  | nil => simp [resetOthers]
  | cons p ps ih =>
    cases m with
    | zero => simp [resetOthers]
    | succ m =>
      simp only [resetOthers, List.getElem?_cons_succ, ih]
      have : j + 1 + m = j + (m + 1) := by omega
      rw [this]

theorem isVisible_iff (ps : List Panel) (p k : Nat) :
    isVisible ps p k = true ↔ ∃ pn, ps[p]? = some pn ∧ pn.elements[k]? = some true := by
  unfold isVisible
  cases h : ps[p]? with
  | none => simp
  | some pn =>
    cases h2 : pn.elements[k]? with
    | none => simp [h2]
    | some b => simp [h2]

theorem hasElem_iff (ps : List Panel) (p k : Nat) :
    hasElem ps p k = true ↔ ∃ pn, ps[p]? = some pn ∧ k < pn.elements.length := by
  unfold hasElem
  cases h : ps[p]? with
  | none => simp
  | some pn => simp

theorem hasElem_of_isVisible {ps : List Panel} {p k : Nat} (h : isVisible ps p k = true) :
    hasElem ps p k = true := by
  rw [isVisible_iff] at h
  rw [hasElem_iff]
  obtain ⟨pn, h1, h2⟩ := h
  refine ⟨pn, h1, ?_⟩
  by_contra hc
  rw [List.getElem?_eq_none (by omega)] at h2
  cases h2

theorem hasElem_revealAt (ps : List Panel) (p k p1 k1 : Nat) :
    hasElem (revealAt ps p k) p1 k1 = hasElem ps p1 k1 := by
  unfold hasElem revealAt
  rw [getElem?_modifyAt]
  by_cases h : p1 = p
  · subst h
    cases h2 : ps[p1]? with
    | none => simp
    | some pn => simp
  · simp [h]

theorem isVisible_revealAt (ps : List Panel) (p k p1 k1 : Nat) :
    isVisible (revealAt ps p k) p1 k1 = true ↔
      isVisible ps p1 k1 = true ∨ (p1 = p ∧ k1 = k ∧ hasElem ps p k = true) := by
  unfold isVisible hasElem revealAt
  rw [getElem?_modifyAt]
  by_cases h : p1 = p
  · subst h
    cases h2 : ps[p1]? with
    | none => simp
    | some pn =>
      simp only [if_true, Option.map_some', List.getElem?_set]
      by_cases hk : k = k1
      · subst hk
        by_cases hl : k < pn.elements.length
        · simp [hl]
        · simp [hl, List.getElem?_eq_none (Nat.le_of_not_lt hl)]
      · have hk2 : ¬ k1 = k := fun e => hk e.symm
        simp [hk, hk2]
  · simp [h]

theorem hasElem_foldl_reveal (l : List RevealTimer) (ps : List Panel) (p k : Nat) :
    hasElem (l.foldl (fun ps tm => revealAt ps tm.panel tm.elem) ps) p k = hasElem ps p k := by
  induction l generalizing ps with
  | nil => rfl
  | cons t l ih => simp only [List.foldl_cons, ih, hasElem_revealAt]

theorem isVisible_foldl_reveal (l : List RevealTimer) (ps : List Panel) (p k : Nat) :
    isVisible (l.foldl (fun ps tm => revealAt ps tm.panel tm.elem) ps) p k = true ↔
      isVisible ps p k = true ∨
        (hasElem ps p k = true ∧ ∃ t ∈ l, t.panel = p ∧ t.elem = k) := by
  induction l generalizing ps with
  | nil => simp
  | cons t l ih =>
    simp only [List.foldl_cons, ih, isVisible_revealAt, hasElem_revealAt, List.mem_cons]
    constructor
    · rintro ((h | ⟨h1, h2, h3⟩) | ⟨h1, t1, h2, h3, h4⟩)
      · exact Or.inl h
      · subst h1 h2
        exact Or.inr ⟨h3, t, Or.inl rfl, rfl, rfl⟩
      · exact Or.inr ⟨h1, t1, Or.inr h2, h3, h4⟩
    · rintro (h | ⟨h1, t1, (h2 | h2), h3, h4⟩)
      · exact Or.inl (Or.inl h)
      · subst h2 h3 h4
        exact Or.inl (Or.inr ⟨rfl, rfl, h1⟩)
      · exact Or.inr ⟨h1, t1, h2, h3, h4⟩

theorem hasElem_runTimers (t : Nat) (s : Controller) (p k : Nat) :
    hasElem (runTimers t s).panels p k = hasElem s.panels p k := by
  simp only [runTimers, hasElem_foldl_reveal]

theorem isVisible_runTimers (t : Nat) (s : Controller) (p k : Nat) :
    isVisible (runTimers t s).panels p k = true ↔
      isVisible s.panels p k = true ∨
        (hasElem s.panels p k = true ∧ ∃ tm ∈ s.timers, tm.due ≤ t ∧ tm.panel = p ∧ tm.elem = k) := by
  simp only [runTimers, isVisible_foldl_reveal, List.mem_insertionSort, List.mem_filter,
    decide_eq_true_eq]
  constructor
  · rintro (h | ⟨h1, tm, ⟨h2, h3⟩, h4, h5⟩)
    · exact Or.inl h
    · exact Or.inr ⟨h1, tm, h2, h3, h4, h5⟩
  · rintro (h | ⟨h1, tm, h2, h3, h4, h5⟩)
    · exact Or.inl h
    · exact Or.inr ⟨h1, tm, ⟨h2, h3⟩, h4, h5⟩

theorem le_foldl_max_due (l : List RevealTimer) (m : Nat) :
    m ≤ l.foldl (fun m tm => max m tm.due) m ∧
      ∀ tm ∈ l, tm.due ≤ l.foldl (fun m tm => max m tm.due) m := by
  induction l generalizing m with
  | nil => simp
  | cons t l ih =>
    obtain ⟨h1, h2⟩ := ih (max m t.due)
    simp only [List.foldl_cons, List.mem_cons]
    refine ⟨le_trans (le_max_left _ _) h1, ?_⟩
    rintro tm (rfl | h)
    · exact le_trans (le_max_right _ _) h1
    · exact h2 tm h

theorem hasElem_settle (s : Controller) (p k : Nat) :
    hasElem (settle s).panels p k = hasElem s.panels p k :=
  hasElem_runTimers _ s p k

theorem isVisible_settle (s : Controller) (p k : Nat) :
    isVisible (settle s).panels p k = true ↔
      isVisible s.panels p k = true ∨
        (hasElem s.panels p k = true ∧ ∃ tm ∈ s.timers, tm.panel = p ∧ tm.elem = k) := by
  unfold settle
  rw [isVisible_runTimers]
  constructor
  · rintro (h | ⟨h1, tm, h2, _, h4, h5⟩)
    · exact Or.inl h
    · exact Or.inr ⟨h1, tm, h2, h4, h5⟩
  · rintro (h | ⟨h1, tm, h2, h4, h5⟩)
    · exact Or.inl h
    · exact Or.inr ⟨h1, tm, h2, (le_foldl_max_due s.timers s.now).2 tm h2, h4, h5⟩

/-! ## `triggerPanelAnimations` -/

theorem mem_scheduleReveals (now p : Nat) (vs : List Bool) (j : Nat) (t : RevealTimer) :
    t ∈ scheduleReveals now p j vs ↔
      t.panel = p ∧ t.due = now + t.elem * 150 ∧ j ≤ t.elem ∧ vs[t.elem - j]? = some false := by
  induction vs generalizing j with
  | nil => simp [scheduleReveals]
  | cons v vs ih =>
    simp only [scheduleReveals, List.mem_append, ih]
    constructor
    · rintro (h | ⟨h1, h2, h3, h4⟩)
      · cases v with
        | true => simp at h
        | false =>
          simp only [Bool.false_eq_true, if_false, List.mem_singleton] at h
          subst h
          simp
      · refine ⟨h1, h2, by omega, ?_⟩
        have : t.elem - j = (t.elem - (j + 1)) + 1 := by omega
        rw [this, List.getElem?_cons_succ]
        exact h4
    · rintro ⟨h1, h2, h3, h4⟩
      by_cases hj : t.elem = j
      · left
        rw [hj, Nat.sub_self, List.getElem?_cons_zero] at h4
        cases h4
        simp only [Bool.false_eq_true, if_false, List.mem_singleton]
        cases t
        simp_all
      · right
        refine ⟨h1, h2, by omega, ?_⟩
        have : t.elem - j = (t.elem - (j + 1)) + 1 := by omega
        rw [this, List.getElem?_cons_succ] at h4
        exact h4

theorem panelAt_natCast (ps : List Panel) (n : Nat) : panelAt ps (n : Int) = ps[n]? := by
  simp [panelAt]

theorem panelAt_eq_none (ps : List Panel) (i : Int) (h : i < 0 ∨ (ps.length : Int) ≤ i) :
    panelAt ps i = none := by
  unfold panelAt
  split
  · rfl
  · rw [List.getElem?_eq_none]
    omega

/-- The panels after `triggerPanelAnimations(n)` for an existing panel `n`. -/
theorem getElem?_trigger_panels (s : Controller) (n : Nat) (h : n < s.panels.length) (m : Nat) :
    (triggerPanelAnimations s (n : Int)).panels[m]? = (s.panels[m]?).map fun p =>
      if m = n then { p with opacity := 1 }
      else { opacity := 0, elements := p.elements.map fun _ => false } := by
  unfold triggerPanelAnimations
  rw [panelAt_natCast, List.getElem?_eq_getElem h]
  simp only [Int.toNat_ofNat, getElem?_resetOthers, getElem?_modifyAt, Nat.zero_add]
  by_cases hm : m = n
  · subst hm
    cases s.panels[m]? <;> simp
  · have : ¬ ((m : Int) = (n : Int)) := by omega
    simp [hm, this]

theorem trigger_timers (s : Controller) (n : Nat) (h : n < s.panels.length) :
    (triggerPanelAnimations s (n : Int)).timers
      = s.timers ++ scheduleReveals s.now n 0 (s.panels[n]).elements := by
  have hp := getElem?_trigger_panels s n h n
  unfold triggerPanelAnimations at hp ⊢
  rw [panelAt_natCast, List.getElem?_eq_getElem h] at hp ⊢
  simp only [Int.toNat_ofNat] at hp ⊢
  rw [panelAt_natCast, hp]
  simp

theorem trigger_panels_length (s : Controller) (i : Int) :
    (triggerPanelAnimations s i).panels.length = s.panels.length := by
  have hm : ∀ (f : Panel → Panel) (n : Nat) (ps : List Panel),
      (modifyAt f n ps).length = ps.length := by
    intro f n ps
    induction ps generalizing n with
    | nil => cases n <;> rfl
    | cons p ps ih => cases n <;> simp [modifyAt, ih]
  have hr : ∀ (a : Int) (j : Nat) (ps : List Panel), (resetOthers a j ps).length = ps.length := by
    intro a j ps
    induction ps generalizing j with
    | nil => rfl
    | cons p ps ih => simp [resetOthers, ih]
  unfold triggerPanelAnimations
  split
  · rfl
  · simp [hm, hr]

theorem hasElem_trigger (s : Controller) (n : Nat) (h : n < s.panels.length) (p k : Nat) :
    hasElem (triggerPanelAnimations s (n : Int)).panels p k = hasElem s.panels p k := by
  unfold hasElem
  rw [getElem?_trigger_panels s n h]
  cases hp : s.panels[p]? with
  | none => simp
  | some pn =>
    by_cases hm : p = n
    · simp [hm]
    · simp [hm]

theorem isVisible_trigger (s : Controller) (n : Nat) (h : n < s.panels.length) (p k : Nat) :
    isVisible (triggerPanelAnimations s (n : Int)).panels p k = true ↔
      p = n ∧ isVisible s.panels p k = true := by
  unfold isVisible
  rw [getElem?_trigger_panels s n h]
  cases hp : s.panels[p]? with
  | none => simp
  | some pn =>
    by_cases hm : p = n
    · simp [hm]
    · simp only [Option.map_some', hm, if_false, false_and, iff_false, Bool.not_eq_true]
      cases hk : (pn.elements.map fun _ => false)[k]? with
      | none => rfl
      | some b =>
        rw [List.getElem?_map] at hk
        cases hk2 : pn.elements[k]? with
        | none => simp [hk2] at hk
        | some c =>
          simp [hk2] at hk
          simp [← hk]

theorem mem_trigger_timers (s : Controller) (n : Nat) (h : n < s.panels.length)
    (t : RevealTimer) :
    t ∈ (triggerPanelAnimations s (n : Int)).timers ↔
      t ∈ s.timers ∨
        (t.panel = n ∧ t.due = s.now + t.elem * 150 ∧ hasElem s.panels n t.elem = true ∧
          isVisible s.panels n t.elem = false) := by
  rw [trigger_timers s n h, List.mem_append, mem_scheduleReveals]
  have hn : s.panels[n]? = some s.panels[n] := List.getElem?_eq_getElem h
  have key : (s.panels[n]).elements[t.elem - 0]? = some false ↔
      (hasElem s.panels n t.elem = true ∧ isVisible s.panels n t.elem = false) := by
    unfold hasElem isVisible
    rw [hn]
    simp only [Nat.sub_zero, decide_eq_true_eq]
    cases hk : (s.panels[n]).elements[t.elem]? with
    | none =>
      have := List.getElem?_eq_none_iff.mp hk
      simp
      omega
    | some b =>
      have := (List.getElem?_eq_some_iff.mp hk).1
      simp [this]
  constructor
  · rintro (h1 | ⟨h1, h2, _, h4⟩)
    · exact Or.inl h1
    · exact Or.inr ⟨h1, h2, key.mp h4⟩
  · rintro (h1 | ⟨h1, h2, h3⟩)
    · exact Or.inl h1
    · exact Or.inr ⟨h1, h2, Nat.zero_le _, key.mpr h3⟩

/-- The visible elements once every timer pending after `triggerPanelAnimations(n)`
has fired: all elements of panel `n`, and the targets of the timers that were
pending before the call. -/
theorem isVisible_settle_trigger (u : Controller) (n : Nat) (h : n < u.panels.length)
    (p k : Nat) :
    isVisible (settle (triggerPanelAnimations u (n : Int))).panels p k = true ↔
      hasElem u.panels p k = true ∧ (p = n ∨ ∃ t ∈ u.timers, t.panel = p ∧ t.elem = k) := by
  rw [isVisible_settle, isVisible_trigger u n h, hasElem_trigger u n h]
  constructor
  · rintro (⟨h1, h2⟩ | ⟨h1, t, h2, h3, h4⟩)
    · exact ⟨hasElem_of_isVisible h2, Or.inl h1⟩
    · rcases (mem_trigger_timers u n h t).mp h2 with h5 | ⟨h5, _⟩
      · exact ⟨h1, Or.inr ⟨t, h5, h3, h4⟩⟩
      · exact ⟨h1, Or.inl (h3.symm.trans h5)⟩
  · rintro ⟨h1, (h2 | ⟨t, h2, h3, h4⟩)⟩
    · subst h2
      by_cases hv : isVisible u.panels p k = true
      · exact Or.inl ⟨rfl, hv⟩
      · refine Or.inr ⟨h1, ⟨u.now + k * 150, p, k⟩, ?_, rfl, rfl⟩
        rw [mem_trigger_timers u p h]
        exact Or.inr ⟨rfl, rfl, h1, by simpa using hv⟩
    · exact Or.inr ⟨h1, t, (mem_trigger_timers u n h t).mpr (Or.inl h2), h3, h4⟩

theorem length_modifyAt {α : Type} (f : α → α) (n : Nat) (ps : List α) :
    (modifyAt f n ps).length = ps.length := by
  induction ps generalizing n with
  | nil => cases n <;> rfl
  | cons p ps ih => cases n <;> simp [modifyAt, ih]

theorem runTimers_panels_length (t : Nat) (s : Controller) :
    (runTimers t s).panels.length = s.panels.length := by
  have h : ∀ (l : List RevealTimer) (ps : List Panel),
      (l.foldl (fun ps tm => revealAt ps tm.panel tm.elem) ps).length = ps.length := by
    intro l
    induction l with
    | nil => intro ps; rfl
    | cons tm l ih =>
      intro ps
      rw [List.foldl_cons, ih]
      exact length_modifyAt _ _ _
  simp only [runTimers, h]

theorem settle_timers (s : Controller) : (settle s).timers = [] := by
  simp only [settle, runTimers, List.filter_eq_nil_iff]
  intro tm h
  simpa using (le_foldl_max_due s.timers s.now).2 tm h

/-- C6: for an existing panel `i` and every state, calling
`triggerPanelAnimations(i)` twice in a row and letting all reveal timers fire
marks the same elements `visible` as calling it once; the same holds when
timers fire between the two calls, provided no reveal of another panel was
pending at the start.  A call schedules reveal timers only for elements of
panel `i` that are not `visible` at the call, and a second call made after the
timers of the first have fired schedules none. -/
theorem reveal_idempotent (s : Controller) (i : Int)
    (hi : 0 ≤ i ∧ i < (s.panels.length : Int)) :
    (∀ p k, isVisible (settle (triggerPanelAnimations (triggerPanelAnimations s i) i)).panels p k
        = isVisible (settle (triggerPanelAnimations s i)).panels p k) ∧
    ((∀ t ∈ s.timers, (t.panel : Int) = i) → ∀ T p k,
      isVisible (settle (triggerPanelAnimations (runTimers T (triggerPanelAnimations s i)) i)).panels p k
        = isVisible (settle (triggerPanelAnimations s i)).panels p k) ∧
    (∃ new, (triggerPanelAnimations s i).timers = s.timers ++ new ∧
      ∀ t ∈ new, (t.panel : Int) = i ∧ isVisible s.panels t.panel t.elem = false) ∧
    (triggerPanelAnimations (settle (triggerPanelAnimations s i)) i).timers = [] := by
  obtain ⟨n, rfl⟩ := Int.eq_ofNat_of_zero_le hi.1
  have hn : n < s.panels.length := by omega
  have hn1 : n < (triggerPanelAnimations s (n : Int)).panels.length := by
    rw [trigger_panels_length]; exact hn
  refine ⟨?_, ?_, ?_, ?_⟩
  · intro p k
    rw [Bool.eq_iff_iff, isVisible_settle_trigger _ n hn1, isVisible_settle_trigger _ n hn,
      hasElem_trigger s n hn]
    constructor
    · rintro ⟨h1, (h2 | ⟨t, h2, h3, h4⟩)⟩
      · exact ⟨h1, Or.inl h2⟩
      · rcases (mem_trigger_timers s n hn t).mp h2 with h5 | ⟨h5, _⟩
        · exact ⟨h1, Or.inr ⟨t, h5, h3, h4⟩⟩
        · exact ⟨h1, Or.inl (h3.symm.trans h5)⟩
    · rintro ⟨h1, (h2 | ⟨t, h2, h3, h4⟩)⟩
      · exact ⟨h1, Or.inl h2⟩
      · exact ⟨h1, Or.inr ⟨t, (mem_trigger_timers s n hn t).mpr (Or.inl h2), h3, h4⟩⟩
  · intro hs T p k
    have hn2 : n < (runTimers T (triggerPanelAnimations s (n : Int))).panels.length := by
      rw [runTimers_panels_length]; exact hn1
    rw [Bool.eq_iff_iff, isVisible_settle_trigger _ n hn2, isVisible_settle_trigger _ n hn,
      hasElem_runTimers, hasElem_trigger s n hn]
    constructor
    · rintro ⟨h1, (h2 | ⟨t, h2, h3, h4⟩)⟩
      · exact ⟨h1, Or.inl h2⟩
      · have h5 : t ∈ (triggerPanelAnimations s (n : Int)).timers := by
          simp only [runTimers, List.mem_filter] at h2
          exact h2.1
        rcases (mem_trigger_timers s n hn t).mp h5 with h6 | ⟨h6, _⟩
        · exact ⟨h1, Or.inr ⟨t, h6, h3, h4⟩⟩
        · exact ⟨h1, Or.inl (h3.symm.trans h6)⟩
    · rintro ⟨h1, (h2 | ⟨t, h2, h3, _⟩)⟩
      · exact ⟨h1, Or.inl h2⟩
      · have := hs t h2
        exact ⟨h1, Or.inl (by omega)⟩
  · refine ⟨scheduleReveals s.now n 0 (s.panels[n]).elements, trigger_timers s n hn, ?_⟩
    intro t ht
    have h1 : t ∈ (triggerPanelAnimations s (n : Int)).timers := by
      rw [trigger_timers s n hn]; exact List.mem_append_right _ ht
    have h2 := (mem_scheduleReveals _ _ _ _ _).mp ht
    have h3 : t ∈ s.timers ∨ _ := (mem_trigger_timers s n hn t).mp h1
    have h4 : hasElem s.panels n t.elem = true ∧ isVisible s.panels n t.elem = false := by
      have hq : s.panels[n]? = some s.panels[n] := List.getElem?_eq_getElem hn
      have h5 := h2.2.2.2
      rw [Nat.sub_zero] at h5
      unfold hasElem isVisible
      rw [hq]
      simp only [h5, Option.getD_some, decide_eq_true_eq, and_true]
      exact (List.getElem?_eq_some_iff.mp h5).1
    rw [h2.1]
    exact ⟨rfl, h4.2⟩
  · have hn3 : n < (settle (triggerPanelAnimations s (n : Int))).panels.length := by
      unfold settle; rw [runTimers_panels_length]; exact hn1
    rw [List.eq_nil_iff_forall_not_mem]
    intro t ht
    rcases (mem_trigger_timers _ n hn3 t).mp ht with h1 | ⟨_, _, h3, h4⟩
    · rw [settle_timers] at h1
      cases h1
    · rw [hasElem_settle, hasElem_trigger s n hn] at h3
      have h5 := (isVisible_settle_trigger s n hn n t.elem).mpr ⟨h3, Or.inl rfl⟩
      rw [h5] at h4
      cases h4

/-- Witness of C6 on the sample controller, panel 1 and its second element. -/
theorem reveal_idempotent_witness :
    isVisible (settle (triggerPanelAnimations (triggerPanelAnimations sampleController 1) 1)).panels 1 1
        = isVisible (settle (triggerPanelAnimations sampleController 1)).panels 1 1 ∧
    isVisible
        (settle (triggerPanelAnimations (runTimers 100 (triggerPanelAnimations sampleController 1)) 1)).panels
        1 1
        = isVisible (settle (triggerPanelAnimations sampleController 1)).panels 1 1 ∧
    (triggerPanelAnimations (settle (triggerPanelAnimations sampleController 1)) 1).timers = [] :=
  have h := reveal_idempotent sampleController 1 (by decide)
  ⟨h.1 1 1, h.2.1 (by decide) 100 1 1, h.2.2.2⟩

/-- C7: right after `triggerPanelAnimations(i)` returns for an existing panel `i`,
panel `i` has opacity 1, every other panel has opacity 0 and none of its
animatable elements is `visible` (the panels themselves stay in place); for an
index with no panel the call changes nothing. -/
theorem trigger_resets_other_panels (s : Controller) (i : Int) :
    (0 ≤ i ∧ i < (s.panels.length : Int) →
      (triggerPanelAnimations s i).panels.length = s.panels.length ∧
      ∀ (j : Nat) (pn : Panel), (triggerPanelAnimations s i).panels[j]? = some pn →
        ((j : Int) = i → pn.opacity = 1) ∧
        ((j : Int) ≠ i → pn.opacity = 0 ∧ ∀ v ∈ pn.elements, v = false)) ∧
    (i < 0 ∨ (s.panels.length : Int) ≤ i → triggerPanelAnimations s i = s) := by
  constructor
  · rintro ⟨h0, h1⟩
    obtain ⟨n, rfl⟩ := Int.eq_ofNat_of_zero_le h0
    have hn : n < s.panels.length := by omega
    refine ⟨trigger_panels_length s _, ?_⟩
    intro j pn hj
    rw [getElem?_trigger_panels s n hn] at hj
    cases hp : s.panels[j]? with
    | none => simp [hp] at hj
    | some q =>
      simp only [hp, Option.map_some', Option.some.injEq] at hj
      constructor
      · intro e
        have : j = n := by omega
        simp only [this, if_true] at hj
        rw [← hj]
      · intro e
        have : ¬ j = n := by omega
        simp only [this, if_false] at hj
        rw [← hj]
        simp
  · intro h
    unfold triggerPanelAnimations
    rw [panelAt_eq_none s.panels i h]

/-- Witness of C7 on the sample controller: after activating panel 2, panel 0
(which was shown) is hidden; panel 4 does not exist. -/
theorem trigger_resets_other_panels_witness :
    (triggerPanelAnimations sampleController 2).panels.length = sampleController.panels.length ∧
    (triggerPanelAnimations sampleController 2).panels[0]? = some ⟨0, [false, false]⟩ ∧
    (⟨0, [false, false]⟩ : Panel).opacity = 0 ∧
    triggerPanelAnimations sampleController 4 = sampleController :=
  have h := (trigger_resets_other_panels sampleController 2).1 (by decide)
  ⟨h.1, by decide, ((h.2 0 ⟨0, [false, false]⟩ (by decide)).2 (by decide)).1,
   (trigger_resets_other_panels sampleController 4).2 (by decide)⟩

/-- C8, evaluated at the failing input: on the sample controller panel 0 is
activated, 100 ms later panel 1 is activated, and another 50 ms later the
second reveal timer of panel 0 (due at 150 ms, never cancelled) fires: element 1
of panel 0 is `visible` together with element 0 of panel 1, although panel 1 is
the most recently activated panel. -/
theorem stale_timer_reveals_inactive_panel :
    (runOps sampleController [.trigger 0, .wait 100, .trigger 1, .wait 50]).panels
        = [⟨0, [false, true]⟩, ⟨1, [true, false]⟩, ⟨0, [false]⟩, ⟨0, []⟩] ∧
      isVisible (runOps sampleController [.trigger 0, .wait 100, .trigger 1]).panels 0 1 = false ∧
      isVisible (runOps sampleController [.trigger 0, .wait 100, .trigger 1, .wait 50]).panels 0 1
        = true ∧
      isVisible (runOps sampleController [.trigger 0, .wait 100, .trigger 1, .wait 50]).panels 1 0
        = true := by
  decide

/-! ## Particles are removed -/

theorem spawn_eq (k : Spawner) (w : ParticleWorld) : spawn k w = appendWithRemoval k.lifetime w := by
  cases k <;> rfl

theorem mem_foldl_removeNode (l : List RemovalTimer) (a : List Nat) (n : Nat) :
    n ∈ l.foldl (fun a tm => removeNode a tm.node) a ↔ n ∈ a ∧ ∀ tm ∈ l, tm.node ≠ n := by
  induction l generalizing a with
  | nil => simp
  | cons t l ih =>
    rw [List.foldl_cons, ih]
    simp only [removeNode, List.mem_filter, List.mem_cons, forall_eq_or_imp, decide_eq_true_eq]
    constructor
    · rintro ⟨⟨h1, h2⟩, h3⟩
      exact ⟨h1, fun e => h2 e.symm, h3⟩
    · rintro ⟨h1, h2, h3⟩
      exact ⟨⟨h1, fun e => h2 e.symm⟩, h3⟩

theorem particleInv_apply (w : ParticleWorld) (e : Nat) (ev : ParticleEvent)
    (h : ParticleInv w e) : ParticleInv (ev.apply w) (ev.elapsed e) := by
  obtain ⟨h1, h2⟩ := h
  cases ev with
  | spawn k =>
    have hk : 0 < k.lifetime ∧ k.lifetime ≤ 4000 := by cases k <;> decide
    simp only [ParticleEvent.apply, ParticleEvent.elapsed, spawn_eq, appendWithRemoval]
    constructor
    · intro n hn
      simp only [List.mem_append, List.mem_singleton] at hn ⊢
      rcases hn with hn | hn
      · obtain ⟨tm, ht, hx⟩ := h1 n hn
        exact ⟨tm, Or.inl ht, hx⟩
      · exact ⟨_, Or.inr rfl, hn.symm⟩
    · intro tm ht
      simp only [List.mem_append, List.mem_singleton] at ht
      rcases ht with ht | ht
      · have := h2 tm ht
        dsimp only
        omega
      · subst ht
        dsimp only
        omega
  | wait dt =>
    simp only [ParticleEvent.apply, ParticleEvent.elapsed, ParticleWorld.advance]
    constructor
    · intro n hn
      simp only [mem_foldl_removeNode, List.mem_insertionSort, List.mem_filter,
        decide_eq_true_eq] at hn
      obtain ⟨tm, ht, hx⟩ := h1 n hn.1
      refine ⟨tm, ?_, hx⟩
      simp only [List.mem_filter, decide_eq_true_eq]
      refine ⟨ht, fun hd => hn.2 tm ⟨ht, hd⟩ hx⟩
    · intro tm ht
      simp only [List.mem_filter, decide_eq_true_eq] at ht
      have := h2 tm ht.1
      dsimp only
      omega

theorem particleInv_run (evs : List ParticleEvent) (w : ParticleWorld) (e : Nat)
    (h : ParticleInv w e) :
    ParticleInv (evs.foldl ParticleEvent.apply w) (evs.foldl ParticleEvent.elapsed e) := by
  induction evs generalizing w e with
  | nil => exact h
  | cons ev evs ih => exact ih _ _ (particleInv_apply w e ev h)

/-- C9: every spawn operation attaches its particle and at that moment registers
a removal timer for it with a fixed lifetime between 2000 and 4000 ms; hence
after any number of spawns, interleaved with the passing of time, no particle
is attached once more than 4000 ms have passed since the last spawn. -/
theorem particles_removed_after_lifetime (k : Spawner) (w : ParticleWorld)
    (evs : List ParticleEvent) (h : 4000 < sinceLastSpawn evs) :
    (spawn k w).attached = w.attached ++ [w.nextId] ∧
    (spawn k w).timers = w.timers ++ [{ due := w.now + k.lifetime, node := w.nextId }] ∧
    2000 ≤ k.lifetime ∧ k.lifetime ≤ 4000 ∧
    (runParticles ParticleWorld.empty evs).attached = [] := by
  refine ⟨by rw [spawn_eq]; rfl, by rw [spawn_eq]; rfl, by cases k <;> decide,
    by cases k <;> decide, ?_⟩
  have h0 : ParticleInv ParticleWorld.empty 0 := by
    constructor <;> simp [ParticleWorld.empty]
  obtain ⟨h1, h2⟩ := particleInv_run evs _ _ h0
  rw [List.eq_nil_iff_forall_not_mem]
  intro n hn
  obtain ⟨tm, ht, _⟩ := h1 n hn
  have := h2 tm ht
  unfold sinceLastSpawn at h
  omega

/-- Witness of C9: ten spawns, then 4001 ms. -/
theorem particles_removed_after_lifetime_witness :
    (runParticles ParticleWorld.empty
      (List.replicate 10 (ParticleEvent.spawn Spawner.simpleRose) ++ [ParticleEvent.wait 4001])).attached
      = [] :=
  (particles_removed_after_lifetime Spawner.simpleRose ParticleWorld.empty _ (by decide)).2.2.2.2

/-! ## Catch game: the score -/

theorem isCaught_modifyAt (f : Vegetable → Vegetable) (id : Nat) (os : List Vegetable)
    (id1 : Nat) (h : id1 ≠ id) : isCaught (modifyAt f id os) id1 = isCaught os id1 := by
  unfold isCaught
  rw [getElem?_modifyAt, if_neg h]

theorem isCaught_modifyAt_keep (f : Vegetable → Vegetable) (hf : ∀ o, (f o).caught = o.caught)
    (id : Nat) (os : List Vegetable) (id1 : Nat) :
    isCaught (modifyAt f id os) id1 = isCaught os id1 := by
  unfold isCaught
  rw [getElem?_modifyAt]
  by_cases h : id1 = id
  · rw [if_pos h]
    cases os[id1]? <;> simp [hf]
  · rw [if_neg h]

theorem caughtCount_modifyAt_keep (f : Vegetable → Vegetable) (hf : ∀ o, (f o).caught = o.caught)
    (id : Nat) (os : List Vegetable) : caughtCount (modifyAt f id os) = caughtCount os := by
  unfold caughtCount
  induction os generalizing id with
  | nil => cases id <;> rfl
  | cons o os ih =>
    cases id with
    | zero => simp [modifyAt, List.countP_cons, hf]
    | succ id => simp [modifyAt, List.countP_cons, ih]

theorem caughtCount_modifyAt_catch (f : Vegetable → Vegetable) (hf : ∀ o, (f o).caught = true)
    (id : Nat) (os : List Vegetable) (h1 : id < os.length) (h2 : isCaught os id = false) :
    caughtCount (modifyAt f id os) = caughtCount os + 1 := by
  unfold caughtCount
  induction os generalizing id with
  | nil => simp at h1
  | cons o os ih =>
    cases id with
    | zero =>
      have : o.caught = false := by simpa [isCaught] using h2
      simp [modifyAt, List.countP_cons, hf, this]
    | succ id =>
      have h3 : isCaught os id = false := by simpa [isCaught] using h2
      have h4 : id < os.length := by simpa using h1
      simp only [modifyAt, List.countP_cons, ih id h4 h3]
      omega

theorem collide_eq (ov : Nat → Bool) (g : Game) (id : Nat) (h1 : id < g.objects.length)
    (h2 : isCaught g.objects id = false) :
    collide ov g id = if ov id = true then catchVegetable g id else g := by
  unfold collide
  have hq : g.objects[id]? = some g.objects[id] := List.getElem?_eq_getElem h1
  have hc : (g.objects[id]).caught = false := by
    unfold isCaught at h2
    rw [hq] at h2
    exact h2
  rw [hq]
  simp [hc]

/-- What one pass of the loop of `checkCollisions` over `l` does. -/
theorem foldl_collide (ov : Nat → Bool) (l : List Nat) (g : Game) (hn : l.Nodup)
    (hl : ∀ id ∈ l, id < g.objects.length ∧ isCaught g.objects id = false) :
    (l.foldl (collide ov) g).score = g.score + (l.filter ov).length ∧
    (l.foldl (collide ov) g).vegetables
      = g.vegetables.filter (fun v => !(decide (v ∈ l) && ov v)) ∧
    (l.foldl (collide ov) g).objects.length = g.objects.length ∧
    (∀ id, isCaught (l.foldl (collide ov) g).objects id
      = (isCaught g.objects id || (decide (id ∈ l) && ov id))) ∧
    caughtCount (l.foldl (collide ov) g).objects = caughtCount g.objects + (l.filter ov).length ∧
    (l.foldl (collide ov) g).gameRunning = g.gameRunning := by
  induction l generalizing g with
  | nil => simp
  | cons a l ih =>
    obtain ⟨ha, hn1⟩ := List.nodup_cons.mp hn
    obtain ⟨ha1, ha2⟩ := hl a (List.mem_cons_self a l)
    rw [List.foldl_cons, collide_eq ov g a ha1 ha2]
    by_cases ho : ov a = true
    · rw [if_pos ho]
      have hl1 : ∀ id ∈ l, id < (catchVegetable g a).objects.length ∧
          isCaught (catchVegetable g a).objects id = false := by
        intro id hid
        have hne : id ≠ a := fun e => ha (e ▸ hid)
        obtain ⟨h1, h2⟩ := hl id (List.mem_cons_of_mem a hid)
        simp only [catchVegetable]
        rw [length_modifyAt, isCaught_modifyAt _ _ _ _ hne]
        exact ⟨h1, h2⟩
      obtain ⟨r1, r2, r3, r4, r5, r6⟩ := ih (catchVegetable g a) hn1 hl1
      refine ⟨?_, ?_, ?_, ?_, ?_, ?_⟩
      · rw [r1, List.filter_cons_of_pos ho, List.length_cons]
        simp only [catchVegetable]
        omega
      · rw [r2]
        simp only [catchVegetable]
        rw [List.filter_filter]
        apply List.filter_congr
        intro v _
        by_cases hv : v = a
        · subst hv
          simp [ho]
        · simp [hv]
      · rw [r3]
        exact length_modifyAt _ _ _
      · intro id
        rw [r4]
        simp only [catchVegetable]
        by_cases hid : id = a
        · subst hid
          have hq : g.objects[id]? = some g.objects[id] := List.getElem?_eq_getElem ha1
          simp [isCaught, getElem?_modifyAt, hq, ho]
        · rw [isCaught_modifyAt _ _ _ _ hid]
          simp [hid]
      · rw [r5]
        simp only [catchVegetable]
        rw [caughtCount_modifyAt_catch _ (fun _ => rfl) a g.objects ha1 ha2,
          List.filter_cons_of_pos ho, List.length_cons]
        omega
      · rw [r6]
        rfl
    · rw [if_neg ho]
      have hl1 : ∀ id ∈ l, id < g.objects.length ∧ isCaught g.objects id = false :=
        fun id hid => hl id (List.mem_cons_of_mem a hid)
      obtain ⟨r1, r2, r3, r4, r5, r6⟩ := ih g hn1 hl1
      have hf : ov a = false := by simpa using ho
      refine ⟨?_, ?_, r3, ?_, ?_, r6⟩
      · rw [r1, List.filter_cons_of_neg ho]
      · rw [r2]
        apply List.filter_congr
        intro v _
        by_cases hv : v = a
        · subst hv
          simp [hf]
        · simp [hv]
      · intro id
        rw [r4]
        by_cases hid : id = a
        · subst hid
          simp [hf]
        · simp [hid]
      · rw [r5, List.filter_cons_of_neg ho]

theorem roundInv_spawn (c0 : Nat) (g : Game) (h : RoundInv c0 g) :
    RoundInv c0 (spawnVegetable g) := by
  obtain ⟨⟨h1, h2⟩, h3, h4⟩ := h
  have hs : spawnVegetable g =
      { g with
        objects := g.objects ++ [{ caught := false, inDom := true }]
        vegetables := g.vegetables ++ [g.objects.length] } := by
    simp [spawnVegetable, h3]
  rw [hs]
  refine ⟨⟨?_, ?_⟩, h3, ?_⟩
  · rw [List.nodup_append]
    refine ⟨h1, List.nodup_singleton _, ?_⟩
    intro a ha hb
    rw [List.mem_singleton] at hb
    have := (h2 a ha).1
    omega
  · intro id hid
    simp only [List.mem_append, List.mem_singleton] at hid
    rcases hid with hid | hid
    · obtain ⟨h5, h6⟩ := h2 id hid
      refine ⟨by simp; omega, ?_⟩
      unfold isCaught at h6 ⊢
      dsimp only
      rw [List.getElem?_append_left h5]
      exact h6
    · subst hid
      refine ⟨by simp, ?_⟩
      simp [isCaught]
  · simp only [caughtCount, List.countP_append] at h4 ⊢
    simp
    exact h4

theorem roundInv_expire (c0 : Nat) (g : Game) (id : Nat) (h : RoundInv c0 g) :
    RoundInv c0 (expireVegetable g id) := by
  obtain ⟨⟨h1, h2⟩, h3, h4⟩ := h
  unfold expireVegetable
  split
  · exact ⟨⟨h1, h2⟩, h3, h4⟩
  · split
    · refine ⟨⟨h1.filter _, ?_⟩, h3, ?_⟩
      · intro v hv
        simp only [List.mem_filter] at hv
        obtain ⟨h5, h6⟩ := h2 v hv.1
        dsimp only
        rw [length_modifyAt,
          isCaught_modifyAt_keep (fun o => { o with inDom := false }) (fun _ => rfl)]
        exact ⟨h5, h6⟩
      · dsimp only
        rw [caughtCount_modifyAt_keep (fun o => { o with inDom := false }) (fun _ => rfl)]
        exact h4
    · exact ⟨⟨h1, h2⟩, h3, h4⟩

theorem roundInv_check (c0 : Nat) (g : Game) (ov : Nat → Bool) (h : RoundInv c0 g) :
    RoundInv c0 (checkCollisions g ov) := by
  obtain ⟨⟨h1, h2⟩, h3, h4⟩ := h
  obtain ⟨r1, r2, r3, r4, r5, r6⟩ := foldl_collide ov g.vegetables g h1 h2
  unfold checkCollisions
  refine ⟨⟨?_, ?_⟩, r6.trans h3, ?_⟩
  · rw [r2]
    exact h1.filter _
  · intro id hid
    rw [r2, List.mem_filter] at hid
    obtain ⟨h5, h6⟩ := h2 id hid.1
    rw [r3, r4, h6]
    refine ⟨h5, ?_⟩
    have := hid.2
    simp only [hid.1, decide_True, Bool.true_and, Bool.not_eq_true', Bool.false_or] at this ⊢
    exact this
  · rw [r1, r5]
    omega

theorem roundInv_run (c0 : Nat) (evs : List GameEvent) (g : Game) (h : RoundInv c0 g) :
    RoundInv c0 (runGame g evs) := by
  induction evs generalizing g with
  | nil => exact h
  | cons ev evs ih =>
    apply ih
    cases ev with
    | spawn => exact roundInv_spawn c0 g h
    | expire id => exact roundInv_expire c0 g id h
    | check ov => exact roundInv_check c0 g ov h

theorem roundInv_startGame (g0 : Game) (h0 : g0.gameRunning = false) :
    RoundInv (caughtCount (startGame g0).objects) (startGame g0) := by
  simp only [startGame, h0]
  refine ⟨⟨?_, ?_⟩, ?_, ?_⟩ <;> simp

/-- C10: in a round started by `startGame()`, after any sequence of
`spawnVegetable`, expiry-timer and `checkCollisions` steps with arbitrary
overlap outcomes, a `checkCollisions` pass raises the score by exactly the
number of not-yet-caught objects in the array that overlap the basket, marks
exactly those caught and removes them from the array; a caught object is never
in the array again and stays caught, the array holds no object twice, and the
score equals the number of objects caught since the round started. -/
theorem score_counts_each_catch_once (g0 : Game) (evs : List GameEvent) (overlaps : Nat → Bool)
    (h0 : g0.gameRunning = false) :
    (checkCollisions (runGame (startGame g0) evs) overlaps).score
      = (runGame (startGame g0) evs).score
        + ((runGame (startGame g0) evs).vegetables.filter fun id =>
            !isCaught (runGame (startGame g0) evs).objects id && overlaps id).length ∧
    (checkCollisions (runGame (startGame g0) evs) overlaps).vegetables
      = (runGame (startGame g0) evs).vegetables.filter (fun id =>
          !(!isCaught (runGame (startGame g0) evs).objects id && overlaps id)) ∧
    (∀ id, isCaught (checkCollisions (runGame (startGame g0) evs) overlaps).objects id
      = (isCaught (runGame (startGame g0) evs).objects id
          || (decide (id ∈ (runGame (startGame g0) evs).vegetables) && overlaps id))) ∧
    (∀ id, isCaught (runGame (startGame g0) evs).objects id = true →
      id ∉ (runGame (startGame g0) evs).vegetables) ∧
    (runGame (startGame g0) evs).vegetables.Nodup ∧
    (runGame (startGame g0) evs).gameRunning = true ∧
    (runGame (startGame g0) evs).score + caughtCount (startGame g0).objects
      = caughtCount (runGame (startGame g0) evs).objects := by
  obtain ⟨⟨h1, h2⟩, h3, h4⟩ := roundInv_run _ evs _ (roundInv_startGame g0 h0)
  obtain ⟨r1, r2, _, r4, _, _⟩ :=
    foldl_collide overlaps (runGame (startGame g0) evs).vegetables _ h1 h2
  refine ⟨?_, ?_, r4, ?_, h1, h3, h4⟩
  · unfold checkCollisions
    rw [r1]
    congr 2
    apply List.filter_congr
    intro id hid
    simp [(h2 id hid).2]
  · unfold checkCollisions
    rw [r2]
    apply List.filter_congr
    intro id hid
    simp [(h2 id hid).2, hid]
  · intro id hc hm
    rw [(h2 id hm).2] at hc
    cases hc

/-- Witness of C10: first round, three objects spawned, the first is caught,
the second expires, then a pass in which every remaining object overlaps. -/
theorem score_counts_each_catch_once_witness :
    (checkCollisions
        (runGame (startGame Game.init)
          [.spawn, .spawn, .spawn, .check (fun id => id == 0), .expire 1]) (fun _ => true)).score
      = (runGame (startGame Game.init)
          [.spawn, .spawn, .spawn, .check (fun id => id == 0), .expire 1]).score
        + ((runGame (startGame Game.init)
            [.spawn, .spawn, .spawn, .check (fun id => id == 0), .expire 1]).vegetables.filter
            fun id =>
              !isCaught (runGame (startGame Game.init)
                [.spawn, .spawn, .spawn, .check (fun id => id == 0), .expire 1]).objects id
                && (fun _ => true) id).length :=
  (score_counts_each_catch_once Game.init
    [.spawn, .spawn, .spawn, .check (fun id => id == 0), .expire 1] (fun _ => true) rfl).1

/-! ## Swipe threshold and wheel debounce -/

/-- C13: for all start and end x-coordinates, with `diff` the difference
`startX - endX` as the code computes it, `handleSwipe(startX, endX)` calls
`nextPanel` exactly when `diff > 50` and `prevPanel` exactly when `diff < -50`;
when `|diff| ≤ 50` it calls neither and leaves the controller, the panel index
included, unchanged.  This holds whatever the subtraction rounds to. -/
theorem swipe_threshold (sub : ℚ → ℚ → ℚ) (s : Controller) (startX endX : ℚ) :
    (handleSwipeCall sub startX endX = some NavCall.next ↔ sub startX endX > 50) ∧
    (handleSwipeCall sub startX endX = some NavCall.prev ↔ sub startX endX < -50) ∧
    (sub startX endX > 50 → handleSwipe sub s startX endX = nextPanel s) ∧
    (sub startX endX < -50 → handleSwipe sub s startX endX = prevPanel s) ∧
    (|sub startX endX| ≤ 50 →
      handleSwipeCall sub startX endX = none ∧ handleSwipe sub s startX endX = s) := by
  have key : handleSwipeCall sub startX endX =
      if sub startX endX > 50 then some NavCall.next
      else if sub startX endX < -50 then some NavCall.prev else none := by
    unfold handleSwipeCall
    by_cases h1 : sub startX endX > 50
    · have : |sub startX endX| > 50 := lt_of_lt_of_le h1 (le_abs_self _)
      have h0 : sub startX endX > 0 := by linarith
      simp [this, h1, h0]
    · by_cases h2 : sub startX endX < -50
      · have : |sub startX endX| > 50 := by
          rw [gt_iff_lt, lt_abs]
          right
          linarith
        have h0 : ¬ sub startX endX > 0 := by linarith
        simp [this, h1, h2, h0]
      · have : ¬ |sub startX endX| > 50 := by
          rw [gt_iff_lt, not_lt, abs_le]
          constructor <;> linarith
        simp [this, h1, h2]
  refine ⟨?_, ?_, ?_, ?_, ?_⟩
  · rw [key]
    by_cases h1 : sub startX endX > 50
    · simp [h1]
    · by_cases h2 : sub startX endX < -50 <;> simp [h1, h2]
  · rw [key]
    by_cases h1 : sub startX endX > 50
    · have : ¬ sub startX endX < -50 := by linarith
      simp [h1, this]
    · by_cases h2 : sub startX endX < -50 <;> simp [h1, h2]
  · intro h1
    simp [handleSwipe, key, h1, performCall]
  · intro h2
    have h1 : ¬ sub startX endX > 50 := by linarith
    simp [handleSwipe, key, h1, h2, performCall]
  · intro h
    rw [abs_le] at h
    have h1 : ¬ sub startX endX > 50 := by linarith [h.2]
    have h2 : ¬ sub startX endX < -50 := by linarith [h.1]
    simp [handleSwipe, key, h1, h2, performCall]

/-- Witness of C13 on the sample controller: swipes of 51, -51 and 50 pixels
between whole-number coordinates, where the subtraction is exact. -/
theorem swipe_threshold_witness :
    handleSwipe exactSub sampleController 100 49 = nextPanel sampleController ∧
    handleSwipe exactSub sampleController 49 100 = prevPanel sampleController ∧
    handleSwipeCall exactSub 100 50 = none ∧
    handleSwipe exactSub sampleController 100 50 = sampleController :=
  have h := swipe_threshold exactSub sampleController 100 49
  have h1 := swipe_threshold exactSub sampleController 49 100
  have h2 := swipe_threshold exactSub sampleController 100 50
  ⟨h.2.2.1 (by norm_num [exactSub]), h1.2.2.2.1 (by norm_num [exactSub]),
    (h2.2.2.2.2 (by norm_num [exactSub, abs_le])).1,
    (h2.2.2.2.2 (by norm_num [exactSub, abs_le])).2⟩

theorem performCall_now (c : Controller) (x : Option NavCall) : (performCall c x).now = c.now := by
  cases x with
  | none => rfl
  | some k =>
    cases k with
    | next => simp only [performCall, nextPanel]; split <;> rfl
    | prev => simp only [performCall, prevPanel]; split <;> rfl

theorem advance_now (dt : Nat) (c : Controller) : (advance dt c).now = c.now + dt := by
  simp [advance, runTimers]

theorem advance_currentPanel (dt : Nat) (c : Controller) :
    (advance dt c).currentPanel = c.currentPanel := rfl

theorem onWheel_of_scrolling (u : WheelSession) (d : ℚ) (h : u.isScrolling = true) :
    onWheel u d = u := by
  unfold onWheel
  rw [if_pos h]

/-- During the debounce window nothing but the clock moves. -/
theorem runWheel_in_window (t : Nat) (evs : List WheelEvent) (w : WheelSession)
    (h1 : w.isScrolling = true) (h2 : w.resetTimers = [t])
    (h3 : w.ctrl.now + wheelTime evs < t) :
    (runWheel w evs).isScrolling = true ∧ (runWheel w evs).resetTimers = [t] ∧
    (runWheel w evs).ctrl.now = w.ctrl.now + wheelTime evs ∧
    (runWheel w evs).ctrl.currentPanel = w.ctrl.currentPanel := by
  induction evs generalizing w with
  | nil => simp [runWheel, wheelTime, h1, h2]
  | cons ev evs ih =>
    have ht : wheelTime (ev :: evs) = ev.duration + wheelTime evs := by
      simp [wheelTime]
    rw [ht] at h3 ⊢
    cases ev with
    | wheel d =>
      have hw : WheelEvent.apply w (.wheel d) = w := by
        simp [WheelEvent.apply, onWheel, h1]
      have := ih w h1 h2 (by simpa [WheelEvent.duration] using h3)
      simp only [runWheel, List.foldl_cons, hw, WheelEvent.duration, Nat.zero_add] at this ⊢
      exact this
    | wait dt =>
      simp only [WheelEvent.duration] at h3 ⊢
      have hk : ¬ t ≤ w.ctrl.now + dt := by omega
      have ha : WheelEvent.apply w (.wait dt)
          = { ctrl := advance dt w.ctrl, isScrolling := true, resetTimers := [t] } := by
        have hk1 : w.ctrl.now + dt < t := by omega
        simp only [WheelEvent.apply, WheelSession.wait, h1, h2]
        simp [hk1]
      have := ih { ctrl := advance dt w.ctrl, isScrolling := true, resetTimers := [t] } rfl rfl
        (by simp only [advance_now]; omega)
      simp only [runWheel, List.foldl_cons, ha, advance_now, advance_currentPanel] at this ⊢
      refine ⟨this.1, this.2.1, ?_, this.2.2.2⟩
      rw [this.2.2.1]
      omega

theorem wellTimed_apply (w : WheelSession) (ev : WheelEvent) (h : w.WellTimed) :
    (ev.apply w).WellTimed := by
  rcases h with ⟨h1, h2⟩ | ⟨h1, t, h2, h3⟩
  · cases ev with
    | wheel d =>
      right
      have ha : WheelEvent.apply w (.wheel d) =
          { ctrl := performCall w.ctrl (some (wheelCall d)), isScrolling := true,
            resetTimers := [w.ctrl.now + 1500] } := by
        simp [WheelEvent.apply, onWheel, h1, h2]
      rw [ha]
      refine ⟨rfl, w.ctrl.now + 1500, rfl, ?_⟩
      rw [performCall_now]
      omega
    | wait dt =>
      left
      simp [WheelEvent.apply, WheelSession.wait, h1, h2]
  · cases ev with
    | wheel d =>
      right
      rw [show WheelEvent.apply w (.wheel d) = w from onWheel_of_scrolling w d h1]
      exact ⟨h1, t, h2, h3⟩
    | wait dt =>
      by_cases hk : t ≤ w.ctrl.now + dt
      · left
        simp [WheelEvent.apply, WheelSession.wait, h2, hk]
      · right
        have hk1 : w.ctrl.now + dt < t := by omega
        simp only [WheelEvent.apply, WheelSession.wait, h1, h2]
        refine ⟨by simp [hk1], t, by simp [hk1], ?_⟩
        rw [advance_now]
        exact hk1

theorem wellTimed_run (evs : List WheelEvent) (w : WheelSession) (h : w.WellTimed) :
    (runWheel w evs).WellTimed := by
  induction evs generalizing w with
  | nil => exact h
  | cons ev evs ih => exact ih _ (wellTimed_apply w ev h)

/-- C12: after any history of wheel events and waiting, a wheel event that
arrives when no debounce window is open (`isScrolling` false) is accepted: it
calls `nextPanel` when `deltaY > 0` and `prevPanel` otherwise.  Every wheel
event arriving during the following 1500 ms changes nothing, so the panel index
stays as the accepted event left it; once 1500 ms have passed the window is
closed and the next wheel event is accepted again. -/
theorem wheel_debounce (c : Controller) (pre : List WheelEvent) (w : WheelSession)
    (deltaY deltaY1 deltaY2 : ℚ) (evs : List WheelEvent) (dt : Nat)
    (hw : w = runWheel (WheelSession.fresh c) pre) (hq : w.isScrolling = false)
    (h1 : wheelTime evs < 1500) (h2 : 1500 ≤ wheelTime evs + dt) :
    (onWheel w deltaY).ctrl = (if deltaY > 0 then nextPanel w.ctrl else prevPanel w.ctrl) ∧
    (onWheel w deltaY).isScrolling = true ∧
    onWheel (runWheel (onWheel w deltaY) evs) deltaY1 = runWheel (onWheel w deltaY) evs ∧
    (runWheel (onWheel w deltaY) evs).ctrl.currentPanel = (onWheel w deltaY).ctrl.currentPanel ∧
    (runWheel (onWheel w deltaY) (evs ++ [WheelEvent.wait dt])).isScrolling = false ∧
    (runWheel (onWheel w deltaY) (evs ++ [WheelEvent.wait dt])).resetTimers = [] ∧
    (onWheel (runWheel (onWheel w deltaY) (evs ++ [WheelEvent.wait dt])) deltaY2).ctrl
      = (if deltaY2 > 0 then
          nextPanel (runWheel (onWheel w deltaY) (evs ++ [WheelEvent.wait dt])).ctrl
        else prevPanel (runWheel (onWheel w deltaY) (evs ++ [WheelEvent.wait dt])).ctrl) := by
  have hq2 : w.resetTimers = [] := by
    have hwt : w.WellTimed := by
      rw [hw]
      exact wellTimed_run pre _ (Or.inl ⟨rfl, rfl⟩)
    rcases hwt with ⟨_, h⟩ | ⟨h, _⟩
    · exact h
    · rw [hq] at h
      cases h
  have hacc : ∀ (u : WheelSession) (d : ℚ), u.isScrolling = false →
      (onWheel u d).ctrl = (if d > 0 then nextPanel u.ctrl else prevPanel u.ctrl) := by
    intro u d hu
    simp only [onWheel, hu, Bool.false_eq_true, if_false, wheelCall]
    split <;> rfl
  have ha : onWheel w deltaY =
      { ctrl := performCall w.ctrl (some (wheelCall deltaY)), isScrolling := true,
        resetTimers := [w.ctrl.now + 1500] } := by
    simp [onWheel, hq, hq2]
  have hn : (onWheel w deltaY).ctrl.now = w.ctrl.now := by
    rw [ha]; exact performCall_now _ _
  have hr : (onWheel w deltaY).resetTimers = [w.ctrl.now + 1500] := by rw [ha]
  have hs : (onWheel w deltaY).isScrolling = true := by rw [ha]
  obtain ⟨r1, r2, r3, r4⟩ :=
    runWheel_in_window (w.ctrl.now + 1500) evs (onWheel w deltaY) hs hr (by rw [hn]; omega)
  have hend : runWheel (onWheel w deltaY) (evs ++ [WheelEvent.wait dt])
      = (runWheel (onWheel w deltaY) evs).wait dt := by
    simp [runWheel, WheelEvent.apply]
  have hfire : w.ctrl.now + 1500 ≤ (runWheel (onWheel w deltaY) evs).ctrl.now + dt := by
    rw [r3, hn]; omega
  have hf : (runWheel (onWheel w deltaY) (evs ++ [WheelEvent.wait dt])).isScrolling = false := by
    rw [hend]
    simp [WheelSession.wait, r2, hfire]
  refine ⟨hacc w deltaY hq, hs, ?_, r4, hf, ?_, hacc _ deltaY2 hf⟩
  · exact onWheel_of_scrolling _ _ r1
  · rw [hend]
    simp [WheelSession.wait, r2, hfire]

/-- Witness of C12 on the sample controller: a wheel event at panel 0, a second
one 1000 ms later, and a third one 500 ms after that. -/
theorem wheel_debounce_witness :
    (onWheel sampleWheel 3).ctrl = nextPanel sampleController ∧
    (runWheel (onWheel sampleWheel 3) [WheelEvent.wait 1000, WheelEvent.wheel 3]).ctrl.currentPanel
      = (onWheel sampleWheel 3).ctrl.currentPanel ∧
    (runWheel (onWheel sampleWheel 3)
      ([WheelEvent.wait 1000, WheelEvent.wheel 3] ++ [WheelEvent.wait 500])).isScrolling = false :=
  have h := wheel_debounce sampleController [] sampleWheel 3 3 3
    [WheelEvent.wait 1000, WheelEvent.wheel 3] 500 rfl rfl (by decide) (by decide)
  ⟨h.1.trans (if_pos (by norm_num)), h.2.2.2.1, h.2.2.2.2.1⟩

/-! ## Catch game: a round lasts 30000 ms -/

theorem collide_gameRunning (ov : Nat → Bool) (g : Game) (id : Nat) :
    (collide ov g id).gameRunning = g.gameRunning := by
  unfold collide
  split
  · rfl
  · split
    · rfl
    · split <;> rfl

theorem checkCollisions_gameRunning (g : Game) (ov : Nat → Bool) :
    (checkCollisions g ov).gameRunning = g.gameRunning := by
  unfold checkCollisions
  generalize g.vegetables = l
  induction l generalizing g with
  | nil => rfl
  | cons a l ih => rw [List.foldl_cons, ih, collide_gameRunning]

theorem spawnVegetable_gameRunning (g : Game) :
    (spawnVegetable g).gameRunning = g.gameRunning := by
  unfold spawnVegetable
  split <;> rfl

theorem expireVegetable_gameRunning (g : Game) (id : Nat) :
    (expireVegetable g id).gameRunning = g.gameRunning := by
  unfold expireVegetable
  split
  · rfl
  · split <;> rfl

theorem gameLoop_gameRunning (g : Game) (ov : Nat → Bool) :
    (gameLoop g ov).gameRunning = g.gameRunning := by
  unfold gameLoop
  split
  · rfl
  · exact checkCollisions_gameRunning g ov

theorem runningUntil_apply (t : Nat) (s : GameSession) (ev : SessionEvent)
    (h : s.RunningUntil t) (ht : s.now + ev.duration < t) :
    (ev.apply s).RunningUntil t ∧ (ev.apply s).now = s.now + ev.duration := by
  obtain ⟨h1, h2, h3, h4, hh, h5, h6⟩ := h
  cases ev with
  | clickStart =>
    have : s.startGame = s := by
      unfold GameSession.startGame
      rw [if_pos h1]
    simp only [SessionEvent.apply, this, SessionEvent.duration, Nat.add_zero]
    exact ⟨⟨h1, h2, h3, h4, hh, h5, h6⟩, trivial⟩
  | wait dt =>
    simp only [SessionEvent.duration] at ht
    have hk : ¬ t ≤ s.now + dt := by omega
    have ha : SessionEvent.apply s (.wait dt) = { s with now := s.now + dt } := by
      simp only [SessionEvent.apply, h2]
      simp [hk, ht]
    rw [ha]
    exact ⟨⟨h1, h2, ht, h4, hh, h5, h6⟩, rfl⟩
  | spawnTick handle =>
    simp only [SessionEvent.apply, SessionEvent.duration, Nat.add_zero]
    split
    · exact ⟨⟨(spawnVegetable_gameRunning _).trans h1, h2, h3, h4, hh, h5, h6⟩, rfl⟩
    · exact ⟨⟨h1, h2, h3, h4, hh, h5, h6⟩, rfl⟩
  | expire id =>
    exact ⟨⟨(expireVegetable_gameRunning _ _).trans h1, h2, h3, h4, hh, h5, h6⟩, rfl⟩
  | frame ov =>
    exact ⟨⟨(gameLoop_gameRunning _ _).trans h1, h2, h3, h4, hh, h5, h6⟩, rfl⟩

theorem runningUntil_run (t : Nat) (evs : List SessionEvent) (s : GameSession)
    (h : s.RunningUntil t) (ht : s.now + sessionTime evs < t) :
    (runSession s evs).RunningUntil t ∧ (runSession s evs).now = s.now + sessionTime evs := by
  induction evs generalizing s with
  | nil => exact ⟨h, by simp [runSession, sessionTime]⟩
  | cons ev evs ih =>
    have hs : sessionTime (ev :: evs) = ev.duration + sessionTime evs := by
      simp [sessionTime]
    rw [hs] at ht ⊢
    obtain ⟨a1, a2⟩ := runningUntil_apply t s ev h (by omega)
    obtain ⟨b1, b2⟩ := ih (ev.apply s) a1 (by omega)
    refine ⟨b1, ?_⟩
    simp only [runSession, List.foldl_cons] at b2 ⊢
    omega

theorem startGame_of_idle (s : GameSession) (h : s.Idle) :
    s.startGame.RunningUntil (s.now + 30000) ∧ s.startGame.now = s.now ∧
      s.startGame.game.score = 0 ∧ s.startGame.game.vegetables = [] := by
  obtain ⟨h1, h2, h3⟩ := h
  have hs : s.startGame =
      { game := Hehe.startGame s.game, now := s.now, startBtnDisabled := true,
        nextHandle := s.nextHandle + 1, vegetableSpawnInterval := some s.nextHandle,
        intervals := [s.nextHandle], endTimers := [s.now + 30000] } := by
    simp [GameSession.startGame, h1, h2, h3]
  have hg : Hehe.startGame s.game =
      { score := 0, gameRunning := true,
        objects := s.game.vegetables.foldl
          (fun os id => modifyAt (fun o => { o with inDom := false }) id os) s.game.objects,
        vegetables := [] } := by
    simp [Hehe.startGame, h1]
  rw [hs, hg]
  exact ⟨⟨rfl, rfl, Nat.lt_add_of_pos_right (by decide), rfl, s.nextHandle, rfl, rfl⟩,
    rfl, rfl, rfl⟩

theorem wait_ends_round (t dt : Nat) (s : GameSession) (h : s.RunningUntil t)
    (ht : t ≤ s.now + dt) :
    (SessionEvent.apply s (.wait dt)).Idle ∧
      (SessionEvent.apply s (.wait dt)).startBtnDisabled = false ∧
      (SessionEvent.apply s (.wait dt)).game.score = s.game.score := by
  obtain ⟨h1, h2, _, _, hh, h5, h6⟩ := h
  have ha : SessionEvent.apply s (.wait dt) =
      { s with
        now := s.now + dt
        endTimers := []
        game := { s.game with gameRunning := false }
        intervals := []
        startBtnDisabled := false } := by
    simp only [SessionEvent.apply, h2]
    simp [ht, endRound, h1, h5, h6, clearInterval]
  rw [ha]
  exact ⟨⟨rfl, rfl, rfl⟩, rfl, rfl⟩

theorem session_wellTimed_apply (s : GameSession) (ev : SessionEvent) (h : s.WellTimed) :
    (ev.apply s).WellTimed := by
  rcases h with hi | ⟨t, hr⟩
  · obtain ⟨h1, h2, h3⟩ := hi
    cases ev with
    | clickStart => exact Or.inr ⟨_, (startGame_of_idle s ⟨h1, h2, h3⟩).1⟩
    | wait dt =>
      left
      simp only [SessionEvent.apply, h2, List.filter_nil, List.foldl_nil]
      exact ⟨h1, rfl, h3⟩
    | spawnTick handle =>
      left
      simp only [SessionEvent.apply, h3, List.not_mem_nil, if_false]
      exact ⟨h1, h2, h3⟩
    | expire id => exact Or.inl ⟨(expireVegetable_gameRunning _ _).trans h1, h2, h3⟩
    | frame ov => exact Or.inl ⟨(gameLoop_gameRunning _ _).trans h1, h2, h3⟩
  · by_cases hk : s.now + ev.duration < t
    · exact Or.inr ⟨t, (runningUntil_apply t s ev hr hk).1⟩
    · cases ev with
      | wait dt => exact Or.inl (wait_ends_round t dt s hr (by simpa using hk)).1
      | clickStart => exact absurd hr.2.2.1 (by simpa [SessionEvent.duration] using hk)
      | spawnTick handle => exact absurd hr.2.2.1 (by simpa [SessionEvent.duration] using hk)
      | expire id => exact absurd hr.2.2.1 (by simpa [SessionEvent.duration] using hk)
      | frame ov => exact absurd hr.2.2.1 (by simpa [SessionEvent.duration] using hk)

theorem session_wellTimed_run (evs : List SessionEvent) (s : GameSession) (h : s.WellTimed) :
    (runSession s evs).WellTimed := by
  induction evs generalizing s with
  | nil => exact h
  | cons ev evs ih => exact ih _ (session_wellTimed_apply s ev h)

/-- C11: after any history, when `startGame()` is accepted (no round running)
the score is 0, the list of falling objects is empty and the game is running;
whatever happens during the next 30000 ms it stays running, and when the
30000 ms timer fires it is no longer running, the spawn interval is cleared and
the start button is enabled, with the score left as it was; `startGame()`
during a round changes nothing, and after the end a new round can be started. -/
theorem round_has_fixed_length (pre : List SessionEvent) (s u : GameSession)
    (evs : List SessionEvent) (dt : Nat)
    (hs : s = runSession GameSession.init pre) (hn : s.game.gameRunning = false)
    (h1 : sessionTime evs < 30000) (h2 : 30000 ≤ sessionTime evs + dt)
    (hu : u.game.gameRunning = true) :
    (s.startGame.game.score = 0 ∧ s.startGame.game.vegetables = [] ∧
      s.startGame.game.gameRunning = true ∧ s.startGame.startBtnDisabled = true) ∧
    (runSession s.startGame evs).game.gameRunning = true ∧
    ((runSession s.startGame (evs ++ [SessionEvent.wait dt])).game.gameRunning = false ∧
      (runSession s.startGame (evs ++ [SessionEvent.wait dt])).intervals = [] ∧
      (runSession s.startGame (evs ++ [SessionEvent.wait dt])).endTimers = [] ∧
      (runSession s.startGame (evs ++ [SessionEvent.wait dt])).startBtnDisabled = false ∧
      (runSession s.startGame (evs ++ [SessionEvent.wait dt])).game.score
        = (runSession s.startGame evs).game.score) ∧
    u.startGame = u ∧
    ((runSession s.startGame (evs ++ [SessionEvent.wait dt])).startGame.game.gameRunning = true ∧
      (runSession s.startGame (evs ++ [SessionEvent.wait dt])).startGame.game.score = 0) := by
  have hi : s.Idle := by
    have hwt : s.WellTimed := by
      rw [hs]
      exact session_wellTimed_run pre _ (Or.inl ⟨rfl, rfl, rfl⟩)
    rcases hwt with h | ⟨t, h⟩
    · exact h
    · have hr := h.1
      rw [hn] at hr
      exact absurd hr (by decide)
  obtain ⟨a1, a2, a3, a4⟩ := startGame_of_idle s hi
  obtain ⟨b1, b2⟩ := runningUntil_run (s.now + 30000) evs s.startGame a1 (by omega)
  have hend : runSession s.startGame (evs ++ [SessionEvent.wait dt])
      = SessionEvent.apply (runSession s.startGame evs) (.wait dt) := by
    simp [runSession]
  obtain ⟨c1, c2, c3⟩ := wait_ends_round (s.now + 30000) dt _ b1 (by omega)
  rw [← hend] at c1 c2 c3
  obtain ⟨d1, _, d3, d4⟩ := startGame_of_idle _ c1
  refine ⟨⟨a3, a4, a1.1, a1.2.2.2.1⟩, b1.1, ⟨c1.1, c1.2.2, c1.2.1, c2, c3⟩, ?_, d1.1, d3⟩
  unfold GameSession.startGame
  rw [if_pos hu]

/-- Witness of C11: the first round, with two objects spawned and caught, ended
by the timer after 29999 + 1 ms. -/
theorem round_has_fixed_length_witness :
    (runSession GameSession.init.startGame
      [SessionEvent.spawnTick 0, SessionEvent.spawnTick 0, SessionEvent.frame (fun _ => true),
        SessionEvent.wait 29999]).game.gameRunning = true ∧
    (runSession GameSession.init.startGame
      ([SessionEvent.spawnTick 0, SessionEvent.spawnTick 0, SessionEvent.frame (fun _ => true),
        SessionEvent.wait 29999] ++ [SessionEvent.wait 1])).game.gameRunning = false ∧
    GameSession.init.startGame.startGame = GameSession.init.startGame :=
  have h := round_has_fixed_length [] GameSession.init GameSession.init.startGame
    [SessionEvent.spawnTick 0, SessionEvent.spawnTick 0, SessionEvent.frame (fun _ => true),
      SessionEvent.wait 29999] 1 rfl rfl (by decide) (by decide) rfl
  ⟨h.2.1, h.2.2.1.1, h.2.2.2.1⟩

/-! ## 3D particle field: depth -/

theorem updateAndDraw_length (width height : ℚ) (rand : Nat → Draws) (i : Nat)
    (ps : List Particle3D) :
    (updateAndDraw width height rand i ps).1.length = ps.length ∧
      (updateAndDraw width height rand i ps).2.length = ps.length := by
  induction ps generalizing i with
  | nil => exact ⟨rfl, rfl⟩
  | cons p ps ih => simp [updateAndDraw, (ih (i + 1)).1, (ih (i + 1)).2]

theorem mem_updateAndDraw (width height : ℚ) (rand : Nat → Draws) (i : Nat)
    (ps : List Particle3D) :
    (∀ q ∈ (updateAndDraw width height rand i ps).1,
      ∃ p ∈ ps, ∃ j, q = (Particle3D.update width height (rand j) p).draw) ∧
    (∀ c ∈ (updateAndDraw width height rand i ps).2,
      ∃ p ∈ ps, ∃ j, c = (Particle3D.update width height (rand j) p).drawCall width height) := by
  induction ps generalizing i with
  | nil => simp [updateAndDraw]
  | cons p ps ih =>
    obtain ⟨h1, h2⟩ := ih (i + 1)
    constructor
    · intro q hq
      simp only [updateAndDraw, List.mem_cons] at hq
      rcases hq with hq | hq
      · exact ⟨p, List.mem_cons_self _ _, i, hq⟩
      · obtain ⟨p1, hp1, j, hj⟩ := h1 q hq
        exact ⟨p1, List.mem_cons_of_mem _ hp1, j, hj⟩
    · intro c hc
      simp only [updateAndDraw, List.mem_cons] at hc
      rcases hc with hc | hc
      · exact ⟨p, List.mem_cons_self _ _, i, hc⟩
      · obtain ⟨p1, hp1, j, hj⟩ := h2 c hc
        exact ⟨p1, List.mem_cons_of_mem _ hp1, j, hj⟩

theorem animate_length (width height : ℚ) (rand : Nat → Draws) (ps : List Particle3D) :
    (animate width height rand ps).1.length = ps.length ∧
      (animate width height rand ps).2.length = ps.length := by
  have h := updateAndDraw_length width height rand 0 (sortByDepth ps)
  have hl : (sortByDepth ps).length = ps.length := List.length_insertionSort _ _
  rw [hl] at h
  exact h

theorem particlesAfter_length (width height : ℚ) (rand : Nat → Nat → Draws) (n : Nat) :
    (particlesAfter width height rand n).length = 150 := by
  induction n with
  | zero => simp [particlesAfter, createParticles, particleCount]
  | succ n ih => rw [particlesAfter, (animate_length _ _ _ _).1, ih]

/-- The depth after `update()` of a particle with `z ≤ 1000` and `speed > 0`. -/
theorem update_depth (width height : ℚ) (d : Draws) (p : Particle3D)
    (hz : p.z ≤ 1000) (hs : 0 < p.speed) :
    1 ≤ (p.update width height d).z ∧ (p.update width height d).z ≤ 1000 := by
  unfold Particle3D.update
  dsimp only
  split
  · constructor <;> norm_num
  · next h =>
    constructor
    · exact not_lt.mp h
    · show p.z - p.speed ≤ 1000
      linarith

theorem update_speed (width height : ℚ) (d : Draws) (p : Particle3D)
    (hd : d.Valid) (hs : 0 < p.speed) : 0 < (p.update width height d).speed := by
  unfold Particle3D.update
  dsimp only
  split
  · simp only [Particle3D.reset]
    have := hd.2.2.2.2.2.1
    linarith
  · exact hs

/-- After creation and after every frame each particle has `z ≤ 1000` and
`speed > 0`, provided the random numbers are in `[0, 1)`. -/
theorem particlesAfter_good (width height : ℚ) (rand : Nat → Nat → Draws)
    (hr : ∀ i j, (rand i j).Valid) (n : Nat) :
    ∀ q ∈ particlesAfter width height rand n, q.z ≤ 1000 ∧ 0 < q.speed := by
  induction n with
  | zero =>
    intro q hq
    simp only [particlesAfter, createParticles, List.mem_map] at hq
    obtain ⟨i, _, rfl⟩ := hq
    have h1 := (hr 0 i).2.2.1
    have h2 := (hr 0 i).2.2.2.2.2
    simp only [Particle3D.reset]
    constructor <;> linarith [h1.1, h1.2, h2.1, h2.2]
  | succ n ih =>
    intro q hq
    obtain ⟨p, hp, j, rfl⟩ := (mem_updateAndDraw width height (rand (n + 1)) 0 _).1 q hq
    have hp1 : p ∈ particlesAfter width height rand n := (List.mem_insertionSort _).mp hp
    obtain ⟨h1, h2⟩ := ih p hp1
    exact ⟨(update_depth width height _ p h1 h2).2, update_speed width height _ p (hr _ _) h2⟩

/-- C14: for a particle with `z ≤ 1000` and `speed > 0`, `update()` either lowers
`z` by exactly `speed` (when `z - speed ≥ 1`) or respawns it with
`z = pz = 1000` (when `z - speed < 1`); afterwards `1 ≤ z ≤ 1000`, so the depth
`draw()` divides by is not zero and the alpha factor `1 - z / 1000` is in
`[0, 1)`.  With random numbers in `[0, 1)` this holds for every draw call of
every frame, and the number of particles is 150 after every frame. -/
theorem depth_stays_in_range (width height : ℚ) (d : Draws) (p : Particle3D)
    (rand : Nat → Nat → Draws) (n : Nat)
    (hz : p.z ≤ 1000) (hs : 0 < p.speed) (hr : ∀ i j, (rand i j).Valid) :
    (1 ≤ p.z - p.speed → p.update width height d = { p with z := p.z - p.speed }) ∧
    (p.z - p.speed < 1 →
      (p.update width height d).z = 1000 ∧ (p.update width height d).pz = 1000) ∧
    (1 ≤ (p.update width height d).z ∧ (p.update width height d).z ≤ 1000) ∧
    ((p.update width height d).drawCall width height).z ≠ 0 ∧
    (0 ≤ ((p.update width height d).drawCall width height).alpha ∧
      ((p.update width height d).drawCall width height).alpha < 1) ∧
    (∀ c ∈ (animate width height (rand (n + 1)) (particlesAfter width height rand n)).2,
      1 ≤ c.z ∧ c.z ≤ 1000 ∧ 0 ≤ c.alpha ∧ c.alpha < 1) ∧
    (particlesAfter width height rand n).length = 150 := by
  have hc : ∀ q : Particle3D, 1 ≤ q.z → q.z ≤ 1000 →
      (q.drawCall width height).z = q.z ∧ 0 ≤ (q.drawCall width height).alpha ∧
        (q.drawCall width height).alpha < 1 := by
    intro q h1 h2
    simp only [Particle3D.drawCall]
    refine ⟨trivial, ?_, ?_⟩
    · linarith
    · linarith
  obtain ⟨u1, u2⟩ := update_depth width height d p hz hs
  obtain ⟨c1, c2, c3⟩ := hc _ u1 u2
  refine ⟨?_, ?_, ⟨u1, u2⟩, ?_, ⟨c2, c3⟩, ?_, particlesAfter_length _ _ _ _⟩
  · intro h
    have : ¬ p.z - p.speed < 1 := not_lt.mpr h
    simp [Particle3D.update, this]
  · intro h
    simp [Particle3D.update, h]
  · rw [c1]
    linarith
  · intro c hcm
    obtain ⟨q, hq, j, rfl⟩ := (mem_updateAndDraw width height (rand (n + 1)) 0 _).2 c hcm
    have hq1 : q ∈ particlesAfter width height rand n := (List.mem_insertionSort _).mp hq
    obtain ⟨g1, g2⟩ := particlesAfter_good width height rand hr n q hq1
    obtain ⟨v1, v2⟩ := update_depth width height (rand (n + 1) j) q g1 g2
    obtain ⟨w1, w2, w3⟩ := hc _ v1 v2
    rw [w1]
    exact ⟨v1, v2, w2, w3⟩

/-- Witness of C14: a particle at `z = 10` with `speed = 3` moves to `z = 7`, and
a particle at `z = 3/2` with `speed = 1` is respawned. -/
theorem depth_stays_in_range_witness :
    ((⟨0, 0, 10, 10, 0, 1, 3⟩ : Particle3D).update 800 600 zeroDraws) = ⟨0, 0, 10 - 3, 10, 0, 1, 3⟩ ∧
    ((⟨0, 0, 3 / 2, 3 / 2, 0, 1, 1⟩ : Particle3D).update 800 600 zeroDraws).z = 1000 ∧
    (particlesAfter 800 600 (fun _ _ => zeroDraws) 2).length = 150 :=
  have hv : ∀ i j : Nat, ((fun _ _ => zeroDraws) i j : Draws).Valid := fun _ _ => by
    simp [Draws.Valid, zeroDraws]
  have h := depth_stays_in_range 800 600 zeroDraws ⟨0, 0, 10, 10, 0, 1, 3⟩
    (fun _ _ => zeroDraws) 2 (by norm_num) (by norm_num) hv
  have h1 := depth_stays_in_range 800 600 zeroDraws ⟨0, 0, 3 / 2, 3 / 2, 0, 1, 1⟩
    (fun _ _ => zeroDraws) 2 (by norm_num) (by norm_num) hv
  ⟨h.1 (by norm_num), (h1.2.1 (by norm_num)).1, h.2.2.2.2.2.2⟩

/-- The depths used by the draw calls of a frame in which no particle is
respawned: each particle's `z - speed`, in the order of the list. -/
theorem updateAndDraw_depths (width height : ℚ) (rand : Nat → Draws) (i : Nat)
    (ps : List Particle3D) (h : ∀ p ∈ ps, 1 ≤ p.z - p.speed) :
    (updateAndDraw width height rand i ps).2.map DrawCall.z
      = ps.map fun p => p.z - p.speed := by
  induction ps generalizing i with
  | nil => rfl
  | cons p ps ih =>
    have hp : ¬ p.z - p.speed < 1 := not_lt.mpr (h p (List.mem_cons_self _ _))
    have ht := ih (i + 1) (fun q hq => h q (List.mem_cons_of_mem _ hq))
    simp only [updateAndDraw, List.map_cons, ht]
    simp [Particle3D.update, Particle3D.drawCall, hp]

theorem sampleField_eq :
    sampleField = List.replicate 148 (Particle3D.reset 800 600 farDraws)
      ++ [Particle3D.reset 800 600 fastDraws, Particle3D.reset 800 600 slowDraws] := by
  have h1 : List.range 150 = List.range 148 ++ [148, 149] := by
    rw [List.range_succ, List.range_succ, List.append_assoc]
    rfl
  have h2 : (List.range 148).map (fun i => Particle3D.reset 800 600 (sampleRand i))
      = List.replicate 148 (Particle3D.reset 800 600 farDraws) := by
    rw [List.eq_replicate_iff]
    refine ⟨by simp, ?_⟩
    intro b hb
    obtain ⟨i, hi, rfl⟩ := List.mem_map.mp hb
    have : i < 148 := List.mem_range.mp hi
    simp [sampleRand, this]
  unfold sampleField createParticles particleCount
  rw [h1, List.map_append, h2]
  rfl

/-- C15, evaluated at the failing input: the 150 particles are created with
random values in `[0, 1)`, 148 of them at depth 500 and the last two at depth
25/2 with speed 5/2 and at depth 12 with speed 3/2.  In the first frame the sort
leaves this order (it is descending in `z`), then each particle is moved before
it is drawn, so the last two draw calls use the depths 10 and 21/2 in this
order: the particle drawn earlier is the nearer one. -/
theorem drawn_depths_not_sorted :
    sampleField.length = 150 ∧
    ((sampleRand 0).Valid ∧ (sampleRand 148).Valid ∧ (sampleRand 149).Valid) ∧
    sortByDepth sampleField = sampleField ∧
    sampleField.map Particle3D.z = List.replicate 148 500 ++ [25 / 2, 12] ∧
    (animate 800 600 (fun _ => zeroDraws) sampleField).2.map DrawCall.z
      = List.replicate 148 499 ++ [10, 21 / 2] ∧
    ¬ ((animate 800 600 (fun _ => zeroDraws) sampleField).2.map DrawCall.z).Pairwise
        (fun a b => a ≥ b) := by
  have hsorted : sortByDepth sampleField = sampleField := by
    unfold sortByDepth
    apply List.Sorted.insertionSort_eq
    rw [sampleField_eq]
    unfold List.Sorted
    rw [List.pairwise_append]
    refine ⟨?_, ?_, ?_⟩
    · rw [List.pairwise_replicate]
      right
      exact le_refl _
    · simp [Particle3D.reset, fastDraws, slowDraws]
      norm_num
    · intro a ha b hb
      rw [List.eq_of_mem_replicate ha]
      simp only [List.mem_cons, List.mem_singleton, List.not_mem_nil, or_false] at hb
      rcases hb with rfl | rfl
      · simp [Particle3D.reset, farDraws, fastDraws]
        norm_num
      · simp [Particle3D.reset, farDraws, slowDraws]
        norm_num
  have hdepth : (animate 800 600 (fun _ => zeroDraws) sampleField).2.map DrawCall.z
      = List.replicate 148 499 ++ [10, 21 / 2] := by
    unfold animate
    rw [hsorted, updateAndDraw_depths]
    · rw [sampleField_eq]
      simp [Particle3D.reset, farDraws, fastDraws, slowDraws]
      norm_num
    · intro p hp
      rw [sampleField_eq] at hp
      simp only [List.mem_append, List.mem_cons, List.mem_singleton, List.not_mem_nil,
        or_false] at hp
      rcases hp with hp | rfl | rfl
      · rw [List.eq_of_mem_replicate hp]
        simp [Particle3D.reset, farDraws]
        norm_num
      · simp [Particle3D.reset, fastDraws]
        norm_num
      · simp [Particle3D.reset, slowDraws]
        norm_num
  refine ⟨?_, ?_, hsorted, ?_, hdepth, ?_⟩
  · rw [sampleField_eq]
    simp
  · simp [sampleRand, Draws.Valid, farDraws, fastDraws, slowDraws]
    norm_num
  · rw [sampleField_eq]
    simp [Particle3D.reset, farDraws, fastDraws, slowDraws]
    norm_num
  · rw [hdepth, List.pairwise_append]
    intro h
    have h2 := h.2.1
    simp at h2
    norm_num at h2

/-! ## Konami code matcher -/

theorem konamiCode_length : konamiCode.length = 10 := rfl

theorem konamiRun_concat (keys : List String) (key : String) :
    konamiRun (keys ++ [key]) = konamiKeydown (konamiRun keys) key := by
  simp [konamiRun]

/-- One key press keeps the index below 10 and the matched part a suffix of the
keys pressed. -/
theorem konamiKeydown_inv (k : Konami) (keys : List String) (key : String)
    (h1 : k.konamiIndex < 10) (h2 : List.IsSuffix (konamiCode.take k.konamiIndex) keys) :
    (konamiKeydown k key).konamiIndex < 10 ∧
      List.IsSuffix (konamiCode.take (konamiKeydown k key).konamiIndex) (keys ++ [key]) := by
  unfold konamiKeydown
  split
  · next hm =>
    split
    · exact ⟨Nat.zero_lt_succ 9, by simp⟩
    · next hne =>
      rw [konamiCode_length] at hne
      refine ⟨by dsimp only; omega, ?_⟩
      dsimp only
      rw [List.take_succ, hm]
      obtain ⟨t, ht⟩ := h2
      exact ⟨t, by simp [← ht]⟩
  · exact ⟨Nat.zero_lt_succ 9, by simp⟩

theorem konamiRun_inv (keys : List String) :
    (konamiRun keys).konamiIndex < 10 ∧
      List.IsSuffix (konamiCode.take (konamiRun keys).konamiIndex) keys := by
  induction keys using List.reverseRecOn with
  | nil => exact ⟨by decide, by simp [konamiRun, Konami.init]⟩
  | append_singleton keys key ih =>
    rw [konamiRun_concat]
    exact konamiKeydown_inv _ keys key ih.1 ih.2

/-- C16: after every sequence of key presses the matcher index `k` is below 10
and the last `k` keys pressed are the first `k` keys of the code.  A further
keydown calls `activateNerdyMode` at most once, and only if it completes ten
consecutive keys equal to the full code, in which case the index is reset to 0;
a key that does not match the expected one resets the index to 0 without a
call. -/
theorem konami_matcher_sound (keys : List String) (key : String) :
    (konamiRun keys).konamiIndex < 10 ∧
    List.IsSuffix (konamiCode.take (konamiRun keys).konamiIndex) keys ∧
    ((konamiKeydown (konamiRun keys) key).activations = (konamiRun keys).activations ∨
      (konamiKeydown (konamiRun keys) key).activations = (konamiRun keys).activations + 1) ∧
    ((konamiKeydown (konamiRun keys) key).activations = (konamiRun keys).activations + 1 →
      List.IsSuffix konamiCode (keys ++ [key]) ∧
        (konamiKeydown (konamiRun keys) key).konamiIndex = 0) ∧
    (konamiCode[(konamiRun keys).konamiIndex]? ≠ some key →
      (konamiKeydown (konamiRun keys) key).konamiIndex = 0 ∧
        (konamiKeydown (konamiRun keys) key).activations = (konamiRun keys).activations) := by
  obtain ⟨h1, h2⟩ := konamiRun_inv keys
  refine ⟨h1, h2, ?_, ?_, ?_⟩
  · unfold konamiKeydown
    split
    · split
      · exact Or.inr rfl
      · exact Or.inl rfl
    · exact Or.inl rfl
  · unfold konamiKeydown
    split
    · next hm =>
      split
      · next he =>
        intro _
        refine ⟨?_, rfl⟩
        rw [konamiCode_length] at he
        have h9 : (konamiRun keys).konamiIndex = 9 := by omega
        rw [h9] at hm h2
        obtain ⟨t, ht⟩ := h2
        have hk : key = "a" := by
          have : konamiCode[9]? = some "a" := rfl
          rw [this] at hm
          exact (Option.some.inj hm).symm
        refine ⟨t, ?_⟩
        rw [← ht, hk, List.append_assoc]
        rfl
      · intro h
        dsimp only at h
        omega
    · intro h
      dsimp only at h
      omega
  · intro hne
    unfold konamiKeydown
    rw [if_neg hne]
    exact ⟨rfl, rfl⟩

/-- Witness of C16: the full code after a stray key activates once and leaves
the index at 0; a wrong key after two matching keys resets the index. -/
theorem konami_matcher_sound_witness :
    List.IsSuffix konamiCode
        (["x", "ArrowUp", "ArrowUp", "ArrowDown", "ArrowDown", "ArrowLeft", "ArrowRight",
          "ArrowLeft", "ArrowRight", "b"] ++ ["a"]) ∧
      (konamiKeydown (konamiRun ["x", "ArrowUp", "ArrowUp", "ArrowDown", "ArrowDown", "ArrowLeft",
        "ArrowRight", "ArrowLeft", "ArrowRight", "b"]) "a").konamiIndex = 0 ∧
      (konamiKeydown (konamiRun ["ArrowUp", "ArrowUp"]) "ArrowUp").konamiIndex = 0 :=
  have h := (konami_matcher_sound ["x", "ArrowUp", "ArrowUp", "ArrowDown", "ArrowDown",
    "ArrowLeft", "ArrowRight", "ArrowLeft", "ArrowRight", "b"] "a").2.2.2.1 (by decide)
  ⟨h.1, h.2, ((konami_matcher_sound ["ArrowUp", "ArrowUp"] "ArrowUp").2.2.2.2 (by decide)).1⟩

/-! ## Easing functions on the unit interval -/

theorem easeOutCubic_range (t : ℚ) (h0 : 0 ≤ t) (h1 : t ≤ 1) :
    0 ≤ easeOutCubic t ∧ easeOutCubic t ≤ 1 := by
  unfold easeOutCubic
  have hu0 : 0 ≤ 1 - t := by linarith
  have hu1 : 1 - t ≤ 1 := by linarith
  have hp0 : 0 ≤ (1 - t) ^ 3 := pow_nonneg hu0 3
  have hp1 : (1 - t) ^ 3 ≤ 1 := pow_le_one₀ hu0 hu1
  constructor <;> linarith

theorem easeInOutCubic_range (t : ℚ) (h0 : 0 ≤ t) (h1 : t ≤ 1) :
    0 ≤ easeInOutCubic t ∧ easeInOutCubic t ≤ 1 := by
  unfold easeInOutCubic
  split
  · next h =>
    have e : 4 * t * t * t = 4 * t ^ 3 := by ring
    have hp0 : 0 ≤ t ^ 3 := pow_nonneg h0 3
    have hp1 : t ^ 3 ≤ 1 := pow_le_one₀ h0 h1
    have hp2 : t ^ 3 ≤ (1 / 2) ^ 3 := pow_le_pow_left₀ h0 (le_of_lt h) 3
    rw [e]
    constructor
    · linarith
    · norm_num at hp2
      linarith
  · have hu0 : 0 ≤ -2 * t + 2 := by linarith
    have hu1 : -2 * t + 2 ≤ 1 := by linarith
    have hp0 : 0 ≤ (-2 * t + 2) ^ 3 := pow_nonneg hu0 3
    have hp1 : (-2 * t + 2) ^ 3 ≤ 1 := pow_le_one₀ hu0 hu1
    constructor <;> linarith

theorem easeOutBounce_range (t : ℚ) (h0 : 0 ≤ t) (h1 : t ≤ 1) :
    0 ≤ easeOutBounce t ∧ easeOutBounce t ≤ 1 := by
  unfold easeOutBounce
  dsimp only
  split
  · next h =>
    have h' : t < 4 / 11 := by norm_num at h; exact h
    constructor <;> nlinarith
  · split
    · next ha h =>
      have ha' : 4 / 11 ≤ t := by norm_num at ha; exact ha
      have h' : t < 8 / 11 := by norm_num at h; exact h
      have e : (3 / 2 : ℚ) / (11 / 4) = 6 / 11 := by norm_num
      rw [e]
      constructor <;> nlinarith
    · split
      · next ha hb h =>
        have hb' : 8 / 11 ≤ t := by norm_num at hb; exact hb
        have h' : t < 10 / 11 := by norm_num at h; exact h
        have e : (9 / 4 : ℚ) / (11 / 4) = 9 / 11 := by norm_num
        rw [e]
        constructor <;> nlinarith
      · next ha hb hc =>
        have hc' : 10 / 11 ≤ t := by norm_num at hc; exact hc
        have e : (21 / 8 : ℚ) / (11 / 4) = 21 / 22 := by norm_num
        rw [e]
        constructor <;> nlinarith

/-- C17: with `7.5625 = 121/16` and `2.75 = 11/4` taken as exact rationals,
`easeOutCubic`, `easeInOutCubic` and `easeOutBounce` each map 0 to 0, 1 to 1
and every rational `t` with `0 ≤ t ≤ 1` into `[0, 1]`. -/
theorem easing_normalised (t : ℚ) (h0 : 0 ≤ t) (h1 : t ≤ 1) :
    (easeOutCubic 0 = 0 ∧ easeOutCubic 1 = 1 ∧ 0 ≤ easeOutCubic t ∧ easeOutCubic t ≤ 1) ∧
    (easeInOutCubic 0 = 0 ∧ easeInOutCubic 1 = 1 ∧
      0 ≤ easeInOutCubic t ∧ easeInOutCubic t ≤ 1) ∧
    (easeOutBounce 0 = 0 ∧ easeOutBounce 1 = 1 ∧ 0 ≤ easeOutBounce t ∧ easeOutBounce t ≤ 1) := by
  refine ⟨⟨?_, ?_, easeOutCubic_range t h0 h1⟩, ⟨?_, ?_, easeInOutCubic_range t h0 h1⟩,
    ⟨?_, ?_, easeOutBounce_range t h0 h1⟩⟩
  · norm_num [easeOutCubic]
  · norm_num [easeOutCubic]
  · norm_num [easeInOutCubic]
  · norm_num [easeInOutCubic]
  · norm_num [easeOutBounce]
  · norm_num [easeOutBounce]

/-- Witness of C17 at `t = 1/2`. -/
theorem easing_normalised_witness :
    (0 ≤ easeOutCubic (1 / 2) ∧ easeOutCubic (1 / 2) ≤ 1) ∧
    (0 ≤ easeInOutCubic (1 / 2) ∧ easeInOutCubic (1 / 2) ≤ 1) ∧
    (0 ≤ easeOutBounce (1 / 2) ∧ easeOutBounce (1 / 2) ≤ 1) :=
  have h := easing_normalised (1 / 2) (by norm_num) (by norm_num)
  ⟨h.1.2.2, h.2.1.2.2, h.2.2.2.2⟩

end Hehe
